/-
  Verification of kobo-notion-sync against its specification.

  Shallow embedding of the data model and the sync orchestration core:
  * models/book.py        (Book, progress_code)
  * models/highlight.py   (Highlight, highlight_id — SHA-256 of the joined content)
  * models/sync_session.py (SyncSession, status, complete)
  * services/notion_client.py (retry_with_backoff, the client's method table)
  * services/cache_manager.py (validate_cache / rebuild_cache / has_highlight)
  * services/sync_manager.py (SyncManager.sync_full, _sync_book_to_notion,
    _check_device_connected) — modelled as a pure function of a "world" that
    fixes the outcome of every external (device / remote API) call, returning
    the finished session together with the chronological trace of external
    operations.
  * cli/sync.py           (the sync command's control flow)
-/
import Mathlib

/-! ## Dates and datetimes

Python `datetime.date` at day granularity and `datetime.datetime` as a date
plus a time-of-day.  Only equality of dates matters to the sync logic. -/

structure Date where
  year : ℕ
  month : ℕ
  day : ℕ
deriving DecidableEq, Repr

structure DateTime where
  date : Date
  seconds : ℕ
deriving DecidableEq, Repr

def charDigit? (c : Char) : Option ℕ :=
  if '0' ≤ c ∧ c ≤ '9' then some (c.toNat - 48) else none

def digitsValAux : List Char → ℕ → Option ℕ
  | [], acc => some acc
  | c :: rest, acc =>
    match charDigit? c with
    | some d => digitsValAux rest (acc * 10 + d)
    | none => none

/-- An all-digit, non-empty character run read as a natural number. -/
def parseNat (cs : List Char) : Option ℕ :=
  if cs = [] then none else digitsValAux cs 0

/-- Split a character list on `'-'`. -/
def splitDashAux : List Char → List Char → List (List Char)
  | [], cur => [cur.reverse]
  | c :: rest, cur =>
    if c = '-' then cur.reverse :: splitDashAux rest []
    else splitDashAux rest (c :: cur)

/-- `datetime.strptime(s, "%Y-%m-%d").date()` in the classification loop of
`sync_full` (sync_manager.py line 209): three dash-separated numeric fields,
month and day range-checked; any parse failure yields `none` (the bare
`except: pass` leaves `notion_last_read = None`). -/
def parseNotionDate (s : String) : Option Date :=
  match splitDashAux s.data [] with
  | [ys, ms, ds] =>
    match parseNat ys, parseNat ms, parseNat ds with
    | some y, some m, some d =>
      if 1 ≤ m ∧ m ≤ 12 ∧ 1 ≤ d ∧ d ≤ 31 then some ⟨y, m, d⟩ else none
    | _, _, _ => none
  | _ => none

/-! ## Book (models/book.py) -/

structure Book where
  kobo_content_id : String
  title : String
  author : String
  isbn : Option String := none
  publisher : Option String := none
  description : Option String := none
  time_spent_reading : Option ℕ := none
  read_status : ℕ
  percent_read : ℚ
  date_last_read : Option DateTime := none
  date_started : Option DateTime := none
  date_finished : Option DateTime := none
  content_type : ℕ := 6
deriving DecidableEq, Repr

/-- The pydantic field constraints of `Book` (field types, bounds and the
`isbn` / `content_type` validators): exactly the inputs the model class
accepts. -/
def Book.valid (b : Book) : Prop :=
  b.kobo_content_id ≠ "" ∧ b.title ≠ "" ∧ b.author ≠ "" ∧
  b.read_status ≤ 2 ∧ 0 ≤ b.percent_read ∧ b.percent_read ≤ 100 ∧
  (∀ i ∈ b.isbn, i.length = 10 ∨ i.length = 13) ∧
  b.content_type = 6

instance (b : Book) : Decidable b.valid := by
  unfold Book.valid; infer_instance

/-- `Book.progress_code` (book.py lines 70-88), translated branch for branch:
`percent_read == 0.0` is tested first and returns `"New"`; only otherwise is
`read_status == 2` consulted. -/
def Book.progress_code (b : Book) : String :=
  if b.percent_read = 0 then "New"
  else if b.read_status = 2 then "Finished"
  else "Reading"

/-! ## Highlight (models/highlight.py) and its dedup hash -/

structure Highlight where
  book_id : String
  text : String
  chapter_progress : Option ℚ := none
  date_created : DateTime
  annotation : Option String := none
  notion_block_id : Option String := none
deriving DecidableEq, Repr

/-- Python `str.strip()`: the string with leading and trailing whitespace
removed. -/
def pyStrip (s : String) : String :=
  ⟨((s.data.dropWhile Char.isWhitespace).reverse.dropWhile Char.isWhitespace).reverse⟩

/-- The pydantic constraints of `Highlight`: non-blank text and the
chapter-progress bounds. -/
def Highlight.valid (h : Highlight) : Prop :=
  pyStrip h.text ≠ "" ∧ ∀ q ∈ h.chapter_progress, 0 ≤ q ∧ q ≤ 100

instance (h : Highlight) : Decidable h.valid := by
  unfold Highlight.valid; infer_instance

/-- Decimal rendering of a chapter-progress value, as Python's f-string
prints the corresponding float: the exact decimal expansion, with a single
trailing `.0` for integral values.  (Kobo chapter-progress values are finite
decimals, for which Python's shortest-round-trip float repr prints exactly
this expansion.) -/
def pyFloatStr (q : ℚ) : String :=
  let sign := if q.num < 0 then "-" else ""
  let n := q.num.natAbs
  let d := q.den
  match (List.range 30).find? (fun k => 10 ^ k % d = 0) with
  | some 0 => sign ++ toString n ++ ".0"
  | some k =>
    let m := n * 10 ^ k / d
    let ip := m / 10 ^ k
    let fp := m % 10 ^ k
    let fs := toString fp
    sign ++ toString ip ++ "." ++ String.mk (List.replicate (k - fs.length) '0') ++ fs
  | none => sign ++ toString n ++ "/" ++ toString d

/-- Python `str(chapter_progress)`: `"None"` when absent, the float's decimal
rendering otherwise. -/
def chapterProgressStr : Option ℚ → String
  | none => "None"
  | some q => pyFloatStr q

/-- `f"{self.book_id}:{self.text}:{self.chapter_progress}"`
(highlight.py line 50): the fields joined with `:` and no escaping. -/
def Highlight.hashContent (h : Highlight) : String :=
  h.book_id ++ ":" ++ h.text ++ ":" ++ chapterProgressStr h.chapter_progress

/-! ### SHA-256 (hashlib.sha256(...).hexdigest()), FIPS 180-4, over byte lists;
words are naturals reduced mod 2^32. -/

def w32 (x : ℕ) : ℕ := x % 4294967296

def rotr32 (n x : ℕ) : ℕ := x / 2 ^ n + x % 2 ^ n * 2 ^ (32 - n)

def shaCh (e f g : ℕ) : ℕ := (e &&& f) ^^^ ((e ^^^ 4294967295) &&& g)

def shaMaj (a b c : ℕ) : ℕ := (a &&& b) ^^^ (a &&& c) ^^^ (b &&& c)

def shaS0 (a : ℕ) : ℕ := rotr32 2 a ^^^ rotr32 13 a ^^^ rotr32 22 a

def shaS1 (e : ℕ) : ℕ := rotr32 6 e ^^^ rotr32 11 e ^^^ rotr32 25 e

def shas0 (x : ℕ) : ℕ := rotr32 7 x ^^^ rotr32 18 x ^^^ x / 2 ^ 3

def shas1 (x : ℕ) : ℕ := rotr32 17 x ^^^ rotr32 19 x ^^^ x / 2 ^ 10

def sha256K : List ℕ :=
  [1116352408, 1899447441, 3049323471, 3921009573, 961987163, 1508970993,
   2453635748, 2870763221, 3624381080, 310598401, 607225278, 1426881987,
   1925078388, 2162078206, 2614888103, 3248222580, 3835390401, 4022224774,
   264347078, 604807628, 770255983, 1249150122, 1555081692, 1996064986,
   2554220882, 2821834349, 2952996808, 3210313671, 3336571891, 3584528711,
   113926993, 338241895, 666307205, 773529912, 1294757372, 1396182291,
   1695183700, 1986661051, 2177026350, 2456956037, 2730485921, 2820302411,
   3259730800, 3345764771, 3516065817, 3600352804, 4094571909, 275423344,
   430227734, 506948616, 659060556, 883997877, 958139571, 1322822218,
   1537002063, 1747873779, 1955562222, 2024104815, 2227730452, 2361852424,
   2428436474, 2756734187, 3204031479, 3329325298]

def sha256H0 : List ℕ :=
  [1779033703, 3144134277, 1013904242, 2773480762,
   1359893119, 2600822924, 528734635, 1541459225]

/-- Append the padding byte 128, zero bytes to a 56 mod 64 boundary, then the 8-byte
big-endian bit length. -/
def sha256Pad (msg : List ℕ) : List ℕ :=
  let len := msg.length
  let z := (119 - len % 64) % 64
  msg ++ 128 :: List.replicate z 0 ++
    (List.range 8).map (fun i => 8 * len / 2 ^ (8 * (7 - i)) % 256)

def bytesToWords : List ℕ → List ℕ
  | a :: b :: c :: d :: rest => (((a * 256 + b) * 256 + c) * 256 + d) :: bytesToWords rest
  | _ => []

def chunks64 (l : List ℕ) : List (List ℕ) :=
  if h : l = [] then [] else l.take 64 :: chunks64 (l.drop 64)
termination_by l.length
decreasing_by
  simp only [List.length_drop]
  have := List.length_pos.mpr h
  omega

/-- Extend the 16 chunk words to the 64-entry message schedule. -/
def msgSchedule (ws : List ℕ) : Array ℕ :=
  (List.range 48).foldl
    (fun a _ =>
      let i := a.size
      a.push (w32 (shas1 (a.getD (i - 2) 0) + a.getD (i - 7) 0 +
        shas0 (a.getD (i - 15) 0) + a.getD (i - 16) 0)))
    ws.toArray

def sha256Compress (hs : List ℕ) (chunk : List ℕ) : List ℕ :=
  let ws := msgSchedule (bytesToWords chunk)
  let final := (List.range 64).foldl
    (fun st i =>
      match st with
      | [a, b, c, d, e, f, g, hh] =>
        let t1 := w32 (hh + shaS1 e + shaCh e f g + sha256K.getD i 0 + ws.getD i 0)
        let t2 := w32 (shaS0 a + shaMaj a b c)
        [w32 (t1 + t2), a, b, c, w32 (d + t1), e, f, g]
      | st => st)
    hs
  (hs.zip final).map (fun p => w32 (p.1 + p.2))

def hexDigitChar (n : ℕ) : Char :=
  if n < 10 then Char.ofNat (48 + n) else Char.ofNat (87 + n)

def word32Hex (x : ℕ) : String :=
  String.mk ((List.range 8).map (fun i => hexDigitChar (x / 2 ^ (4 * (7 - i)) % 16)))

def sha256Hex (msg : List ℕ) : String :=
  String.join (((chunks64 (sha256Pad msg)).foldl sha256Compress sha256H0).map word32Hex)

def utf8Bytes (s : String) : List ℕ := s.toUTF8.toList.map (fun b => b.toNat)

/-- `Highlight.highlight_id` (highlight.py lines 38-51):
`hashlib.sha256(content.encode("utf-8")).hexdigest()` of the joined content. -/
def Highlight.highlight_id (h : Highlight) : String :=
  sha256Hex (utf8Bytes h.hashContent)

/-! ## SyncSession (models/sync_session.py)

`end_time` is abstracted to the number of `complete()` calls the session has
received: `completions ≥ 1` iff the end timestamp is set, and `completions`
counts how many times it was (re)set. -/

/-- The three statuses of sync_session.py: SUCCESS, PARTIAL (errors but at
least one highlight synced — spelled `incomplete` here), FAILED. -/
inductive SyncStatus | success | incomplete | failed
deriving DecidableEq, Repr

structure SyncSession where
  books_processed : ℕ := 0
  books_created : ℕ := 0
  books_updated : ℕ := 0
  books_skipped : ℕ := 0
  highlights_synced : ℕ := 0
  errors : List String := []
  updated_book_names : List String := []
  completions : ℕ := 0
deriving DecidableEq, Repr

/-- `SyncSession.status` (sync_session.py lines 44-58). -/
def SyncSession.status (s : SyncSession) : SyncStatus :=
  if s.errors = [] then .success
  else if 0 < s.highlights_synced then .incomplete
  else .failed

/-- `SyncSession.add_error`: appends to the error list. -/
def SyncSession.add_error (s : SyncSession) (e : String) : SyncSession :=
  { s with errors := s.errors ++ [e] }

/-- `SyncSession.complete` (sync_session.py lines 114-116): sets the end
timestamp (modelled as one more completion). -/
def SyncSession.complete (s : SyncSession) : SyncSession :=
  { s with completions := s.completions + 1 }

/-! ## retry_with_backoff (notion_client.py lines 15-65)

One call attempt either returns, raises a rate-limit `APIResponseError`
(status 429), or raises some other error.  `attempts k` is the outcome of the
(k+1)-th invocation of the wrapped function. -/

inductive CallOutcome | ok | rateLimited | otherError
deriving DecidableEq, Repr

structure RetryRun where
  /-- `ok` = the wrapper returned; `rateLimited` / `otherError` = the wrapper
  re-raised that error. -/
  result : CallOutcome
  /-- the `time.sleep` durations performed, in seconds, in order. -/
  sleeps : List ℕ
deriving DecidableEq, Repr

/-- The `for attempt in range(max_retries + 1)` loop; `fuel` is the number of
loop iterations left.  When the loop falls through, line 61 calls the function
one final time (the "should not reach here" fallback). -/
def retryAux (attempts : ℕ → CallOutcome) (maxRetries : ℕ) :
    ℕ → ℕ → ℕ → List ℕ → RetryRun
  | 0, attempt, _, sleeps => ⟨attempts attempt, sleeps⟩
  | fuel + 1, attempt, wait, sleeps =>
    match attempts attempt with
    | .ok => ⟨.ok, sleeps⟩
    | .rateLimited =>
      if attempt < maxRetries then
        retryAux attempts maxRetries fuel (attempt + 1) (wait * 2) (sleeps ++ [wait])
      else ⟨.rateLimited, sleeps⟩
    | .otherError => ⟨.otherError, sleeps⟩

/-- `retry_with_backoff(max_retries=3, initial_wait=1.0)` as applied to every
decorated client method. -/
def retry_with_backoff (attempts : ℕ → CallOutcome) : RetryRun :=
  retryAux attempts 3 4 0 1 []

/-- The remote-call methods `NotionClient` exposes (notion_client.py), in
source order, each with whether it carries the `@retry_with_backoff`
decorator. -/
def notionClientMethods : List (String × Bool) :=
  [("validate_token", false),
   ("list_databases", false),
   ("validate_database_schema", true),
   ("get_database_page_count", false),
   ("create_database", false),
   ("add_optional_properties", false),
   ("initialize_empty_database", false),
   ("add_tracking_properties", false),
   ("create_book_page", true),
   ("set_cover_image", true),
   ("create_highlight_blocks", true),
   ("update_book_status_to_completed", true),
   ("list_kobo_books", true),
   ("get_book_by_kobo_id", true),
   ("update_book_page", true),
   ("update_sync_metadata", true),
   ("count_non_kobo_books", true)]

/-! ## CacheManager (services/cache_manager.py)

The SQLite store under `~/.kobo-notion-sync/cache/highlights.db`, abstracted
to the states the code distinguishes: file absent, file present but unreadable
as a database (`sqlite3.DatabaseError` on access), or an openable database
with or without the `highlights` table and with its list of stored hashes. -/

inductive CacheDB
  | absent
  | unreadable
  | store (hasTable : Bool) (hashes : List String)
deriving DecidableEq, Repr

structure CacheValidation where
  valid : Bool
  error : Option String
  entry_count : ℕ
deriving DecidableEq, Repr

/-- `CacheManager.validate_cache` (cache_manager.py lines 154-226): a missing
file is valid-and-empty; a missing `highlights` table is reported invalid; a
`sqlite3.DatabaseError` is caught and reported invalid — in every case the
result is returned, not raised. -/
def validate_cache : CacheDB → CacheValidation
  | .absent => ⟨true, none, 0⟩
  | .unreadable => ⟨false, some "Database corrupted", 0⟩
  | .store false _ => ⟨false, some "Cache table not found", 0⟩
  | .store true hashes => ⟨true, none, hashes.length⟩

/-- `CacheManager.rebuild_cache` (lines 228-251): delete the file, recreate
the schema, commit — leaving an empty table whatever the prior state. -/
def rebuild_cache : CacheDB → CacheDB :=
  fun _ => .store true []

/-- `CacheManager.has_highlight` (lines 40-74): `False` when the file is
absent; a lookup when the table exists; any `sqlite3.Error` (unreadable file,
or `no such table: highlights`) is re-raised as `CacheCorruptionError`
(modelled as `Except.error`). -/
def has_highlight : CacheDB → String → Except String Bool
  | .absent, _ => .ok false
  | .unreadable, _ => .error "Cache database corrupted"
  | .store false _, _ => .error "Cache database corrupted"
  | .store true hashes, h => .ok (h ∈ hashes)

/-! ## The sync orchestrator (services/sync_manager.py)

`SyncManager.sync_full` is modelled as a pure function of a `SyncWorld` that
fixes the outcome of every external call.  Python exceptions are the three
kinds the orchestrator distinguishes (`KoboDeviceError`,
`NotionValidationError`, anything else); each call site handles exactly the
kinds its `except` clauses name, and unhandled kinds fall through to the
outermost `except Exception` of `sync_full`.  The function also returns the
chronological trace of external operations it performed. -/

inductive Exc
  | device (msg : String)
  | notion (msg : String)
  | other (msg : String)
deriving DecidableEq, Repr

def Exc.msg : Exc → String
  | .device m => m
  | .notion m => m
  | .other m => m

/-- One row of `get_kobo_books_mapping`'s result: the tracked page's id and
its stored last-read date string, keyed by Kobo content id. -/
structure MappingEntry where
  page_id : Option String
  last_read_date : Option String
deriving DecidableEq, Repr

/-- The external operations `sync_full` can perform, in the order issued. -/
inductive Op
  | detectDevice
  | deleteAllKoboBooks (db : String)
  | extractBooks
  | getKoboBooksMapping (db : String)
  | deletePagesBatch (ids : List (Option String))
  | checkConnected (c : String)
  | extractHighlights (c : String)
  | getBookByKoboId (c : String)
  | updateBookPage (p : String)
  | updateBookStatusCompleted (p : String)
  | createBookPage (c : String)
  | setCoverImage (p : String)
  | createHighlightBlocks (p : String)
  | updateHighlightBlocks (p : String)
  | updateSyncMetadata (p : String)
  | updateDatabaseTitle (db : String)
deriving DecidableEq, Repr

/-- Remote operations that write to the Notion workspace. -/
def Op.isRemoteMutating : Op → Bool
  | .deleteAllKoboBooks _ => true
  | .deletePagesBatch _ => true
  | .updateBookPage _ => true
  | .updateBookStatusCompleted _ => true
  | .createBookPage _ => true
  | .setCoverImage _ => true
  | .createHighlightBlocks _ => true
  | .updateHighlightBlocks _ => true
  | .updateSyncMetadata _ => true
  | .updateDatabaseTitle _ => true
  | _ => false

/-- Remote API operations (reads included). -/
def Op.isRemote : Op → Bool
  | .getKoboBooksMapping _ => true
  | .getBookByKoboId _ => true
  | op => op.isRemoteMutating

/-- Device (USB) operations. -/
def Op.isDevice : Op → Bool
  | .detectDevice => true
  | .extractBooks => true
  | .checkConnected _ => true
  | .extractHighlights _ => true
  | _ => false

/-- The outcome of every external call one run can make. -/
structure SyncWorld where
  /-- `detect_device()` / `get_device_info()` (step 1) -/
  detect : Except Exc String
  /-- `delete_all_kobo_books(db)` (step 1.5) -/
  deleteAll : Except Exc ℕ
  /-- `extract_books(config)` (step 2) -/
  books : Except Exc (List Book)
  /-- `get_kobo_books_mapping(db)` (step 2.5) -/
  mapping : Except Exc (List (String × MappingEntry))
  /-- `delete_pages_batch(ids)` (step 2.9) -/
  deleteBatch : Except Exc ℕ
  /-- `_check_device_connected()` before processing the named book (step 3) -/
  connected : String → Bool
  /-- `extract_highlights(content_id)` (steps 3 and 4) -/
  extractHl : String → Except Exc (List Highlight)
  /-- `get_book_by_kobo_id(db, content_id)`: the found page's id, if any -/
  lookup : String → Except Exc (Option String)
  /-- `get_book_last_read_date(existing_page)` (reads the fetched page) -/
  pageLastRead : String → Option DateTime
  /-- `update_book_page(page_id, ...)` -/
  updatePage : String → Except Exc Unit
  /-- `update_book_status_to_completed(page_id, ...)` -/
  updateStatusCompleted : String → Except Exc Unit
  /-- `create_book_page(...)`: the new page's id -/
  createPage : String → Except Exc String
  /-- `cover_image_service.get_cover_url(...)` for the named book -/
  coverUrl : String → Except Exc (Option String)
  /-- `set_cover_image(page_id, url)` -/
  setCover : String → Except Exc Unit
  /-- `create_highlight_blocks(page_id, ...)` -/
  createBlocks : String → Except Exc Unit
  /-- `update_highlight_blocks(page_id, ...)` -/
  updateBlocks : String → Except Exc Unit
  /-- `update_sync_metadata(page_id, ...)` -/
  updateMeta : String → Except Exc Unit
  /-- `update_database_title(db, total_books)` -/
  updateTitle : Except Exc Unit

/-- The device-side last-read date: `book.date_last_read.date() if
book.date_last_read else None` (sync_manager.py line 203). -/
def Book.deviceDate (b : Book) : Option Date := b.date_last_read.map DateTime.date

/-- The Notion-side last-read date: the stored string parsed with
`"%Y-%m-%d"`, `None` on absence or parse failure (lines 205-211). -/
def MappingEntry.remoteDate (e : MappingEntry) : Option Date :=
  e.last_read_date.bind parseNotionDate

/-- Python `dict` lookup on the batch-fetched mapping. -/
def lookupEntry : List (String × MappingEntry) → String → Option MappingEntry
  | [], _ => none
  | (k, v) :: rest, c => if k = c then some v else lookupEntry rest c

/-- Python `set.add` on the `books_to_process` set, keeping first-insertion
order (only membership and cardinality are consumed). -/
def insertSet (l : List String) (x : String) : List String :=
  if x ∈ l then l else l ++ [x]

/-- The accumulators of the classification loop (step 2.7):
`books_to_delete_ids`, `books_to_process`, `books_created_list`,
`books_updated_list`. -/
structure ClassifyResult where
  toDelete : List (Option String)
  toProcess : List String
  createdNames : List String
  updatedNames : List String
deriving DecidableEq, Repr

/-- One iteration of the step 2.7 loop (sync_manager.py lines 185-239). -/
def classifyStep (m : List (String × MappingEntry)) (c : ClassifyResult) (b : Book) :
    ClassifyResult :=
  match lookupEntry m b.kobo_content_id with
  | none =>
    { c with toProcess := insertSet c.toProcess b.kobo_content_id,
             createdNames := c.createdNames ++ [b.title] }
  | some e =>
    if b.deviceDate ≠ e.remoteDate then
      { c with toDelete := c.toDelete ++ [e.page_id],
               toProcess := insertSet c.toProcess b.kobo_content_id,
               updatedNames := c.updatedNames ++ [b.title] }
    else c

def classifyAux (m : List (String × MappingEntry)) :
    List Book → ClassifyResult → ClassifyResult
  | [], c => c
  | b :: rest, c => classifyAux m rest (classifyStep m c b)

/-- The whole classification loop over the extracted books. -/
def classifyBooks (m : List (String × MappingEntry)) (books : List Book) : ClassifyResult :=
  classifyAux m books ⟨[], [], [], []⟩

/-- The shared tail of `_sync_book_to_notion`: sync metadata update (lines
588-594); an error escapes the per-step calls to the method's own handlers,
which return `None`. -/
def syncBookMeta (w : SyncWorld) (pid : String) (t : List Op) : Option String × List Op :=
  match w.updateMeta pid with
  | .ok _ => (some pid, t ++ [.updateSyncMetadata pid])
  | .error _ => (none, t ++ [.updateSyncMetadata pid])

/-- Highlight-block creation/update of `_sync_book_to_notion` (lines
547-586), then the metadata tail. -/
def syncBookBlocks (w : SyncWorld) (hs : List Highlight) (pid : String) (isUpdate : Bool)
    (t : List Op) : Option String × List Op :=
  if hs = [] then syncBookMeta w pid t
  else if isUpdate then
    match w.updateBlocks pid with
    | .ok _ => syncBookMeta w pid (t ++ [.updateHighlightBlocks pid])
    | .error _ => (none, t ++ [.updateHighlightBlocks pid])
  else
    match w.createBlocks pid with
    | .ok _ => syncBookMeta w pid (t ++ [.createHighlightBlocks pid])
    | .error _ => (none, t ++ [.createHighlightBlocks pid])

/-- The cover-image block of `_sync_book_to_notion` (lines 501-545): runs only
when an ISBN is present; every failure inside it is caught and the sync
continues, so only the `set_cover_image` call (issued when a URL was found)
shows in the trace. -/
def coverOps (w : SyncWorld) (b : Book) (pid : String) : List Op :=
  if b.isbn.isSome then
    match w.coverUrl b.kobo_content_id with
    | .ok (some _) => [.setCoverImage pid]
    | _ => []
  else []

/-- `SyncManager._sync_book_to_notion` (lines 409-624): look the book up,
update or create its page, then cover, highlight blocks and sync metadata;
every `NotionValidationError` or other exception is caught inside the method,
which then returns `None`. -/
def sync_book_to_notion (w : SyncWorld) (b : Book) (hs : List Highlight) (t : List Op) :
    Option String × List Op :=
  match w.lookup b.kobo_content_id with
  | .error _ => (none, t ++ [.getBookByKoboId b.kobo_content_id])
  | .ok (some pid) =>
    match w.updatePage pid with
    | .error _ => (none, t ++ [.getBookByKoboId b.kobo_content_id, .updateBookPage pid])
    | .ok _ =>
      if b.progress_code = "Finished" then
        match w.updateStatusCompleted pid with
        | .error _ =>
          (none, t ++ [.getBookByKoboId b.kobo_content_id, .updateBookPage pid,
            .updateBookStatusCompleted pid])
        | .ok _ =>
          syncBookBlocks w hs pid true
            (t ++ [.getBookByKoboId b.kobo_content_id, .updateBookPage pid,
              .updateBookStatusCompleted pid] ++ coverOps w b pid)
      else
        syncBookBlocks w hs pid true
          (t ++ [.getBookByKoboId b.kobo_content_id, .updateBookPage pid] ++ coverOps w b pid)
  | .ok none =>
    match w.createPage b.kobo_content_id with
    | .error _ =>
      (none, t ++ [.getBookByKoboId b.kobo_content_id, .createBookPage b.kobo_content_id])
    | .ok pid =>
      syncBookBlocks w hs pid false
        (t ++ [.getBookByKoboId b.kobo_content_id, .createBookPage b.kobo_content_id] ++
          coverOps w b pid)

/-- Result of the step 3 loop: `halted` is the mid-run device-disconnection
early return (the session already completed), `cont` falls through to step
4. -/
inductive StepRes
  | halted (s : SyncSession) (t : List Op)
  | cont (s : SyncSession) (t : List Op)
deriving Repr

/-- The step 3 loop (lines 272-327): skip books outside `books_to_process`;
check the device before each processed book and abort the run on
disconnection; extract highlights, `KoboDeviceError` degrading to an empty
list and any other error being recorded per book. -/
def step3 (w : SyncWorld) (tp : List String) :
    List Book → SyncSession → List Op → StepRes
  | [], s, t => .cont s t
  | b :: rest, s, t =>
    if b.kobo_content_id ∈ tp then
      if w.connected b.kobo_content_id then
        match w.extractHl b.kobo_content_id with
        | .ok hs =>
          step3 w tp rest { s with highlights_synced := s.highlights_synced + hs.length }
            (t ++ [.checkConnected b.kobo_content_id, .extractHighlights b.kobo_content_id])
        | .error (.device _) =>
          step3 w tp rest s
            (t ++ [.checkConnected b.kobo_content_id, .extractHighlights b.kobo_content_id])
        | .error e =>
          step3 w tp rest
            (s.add_error ("Failed to process book '" ++ b.title ++ "': " ++ e.msg))
            (t ++ [.checkConnected b.kobo_content_id, .extractHighlights b.kobo_content_id])
      else
        .halted ((s.add_error "Kobo device disconnected during sync - halting").complete)
          (t ++ [.checkConnected b.kobo_content_id])
    else step3 w tp rest s t

/-- The step 4 loop (lines 330-354), run only when `dry_run` is off:
re-extract each processed book's highlights and sync it via
`_sync_book_to_notion`; any exception is recorded per book. -/
def step4 (w : SyncWorld) (tp : List String) :
    List Book → SyncSession → List Op → SyncSession × List Op
  | [], s, t => (s, t)
  | b :: rest, s, t =>
    if b.kobo_content_id ∈ tp then
      match w.extractHl b.kobo_content_id with
      | .error e =>
        step4 w tp rest
          (s.add_error ("Failed to sync book '" ++ b.title ++ "': " ++ e.msg))
          (t ++ [.extractHighlights b.kobo_content_id])
      | .ok hs =>
        step4 w tp rest s
          (sync_book_to_notion w b hs (t ++ [.extractHighlights b.kobo_content_id])).2
    else step4 w tp rest s t

/-- The outermost `except Exception` of `sync_full` (lines 381-385). -/
def unexpectedExit (s : SyncSession) (t : List Op) (e : Exc) : SyncSession × List Op :=
  ((s.add_error ("Unexpected sync error: " ++ e.msg)).complete, t)

/-- Step 2.9's trace contribution: the single batch-delete call, issued iff
any page was marked for deletion. -/
def batchOps (m : List (String × MappingEntry)) (books : List Book) : List Op :=
  if (classifyBooks m books).toDelete = [] then []
  else [.deletePagesBatch (classifyBooks m books).toDelete]

/-- The session-count updates of sync_manager.py lines 253-258. -/
def recordCounts (m : List (String × MappingEntry)) (books : List Book)
    (s : SyncSession) : SyncSession :=
  { s with books_created := (classifyBooks m books).createdNames.length,
           books_updated := (classifyBooks m books).updatedNames.length,
           books_processed := (classifyBooks m books).toProcess.length,
           books_skipped := books.length - (classifyBooks m books).toProcess.length,
           updated_book_names :=
             (classifyBooks m books).createdNames ++ (classifyBooks m books).updatedNames }

/-- Steps 2.7-2.9 and 3-4 and the run's tail (lines 177-379): classify,
batch-delete the outdated pages (failure logged and ignored), record the
counts, run the two per-book loops, complete the session, then best-effort
update the database title. -/
def afterMapping (w : SyncWorld) (db : String) (dry_run : Bool) (books : List Book)
    (m : List (String × MappingEntry)) (s : SyncSession) (t : List Op) :
    SyncSession × List Op :=
  match step3 w (classifyBooks m books).toProcess books
      (recordCounts m books s) (t ++ batchOps m books) with
  | .halted s2 t2 => (s2, t2)
  | .cont s2 t2 =>
    if dry_run then (s2.complete, t2 ++ [.updateDatabaseTitle db])
    else
      ((step4 w (classifyBooks m books).toProcess books s2 t2).1.complete,
        (step4 w (classifyBooks m books).toProcess books s2 t2).2 ++ [.updateDatabaseTitle db])

/-- Step 2.5 (lines 159-175): batch-fetch the mapping; any failure degrades to
an empty mapping and the run continues. -/
def afterBooks (w : SyncWorld) (db : String) (dry_run : Bool) (books : List Book)
    (s : SyncSession) (t : List Op) : SyncSession × List Op :=
  match w.mapping with
  | .ok m => afterMapping w db dry_run books m s (t ++ [.getKoboBooksMapping db])
  | .error _ => afterMapping w db dry_run books [] s (t ++ [.getKoboBooksMapping db])

/-- Step 2 (lines 143-157): extract the books; a `KoboDeviceError` finalizes
and returns, anything else reaches the outermost handler. -/
def stepExtract (w : SyncWorld) (db : String) (dry_run : Bool)
    (s : SyncSession) (t : List Op) : SyncSession × List Op :=
  match w.books with
  | .ok books =>
    afterBooks w db dry_run books { s with books_processed := books.length }
      (t ++ [.extractBooks])
  | .error (.device m) =>
    ((s.add_error ("Failed to extract books: " ++ m)).complete, t ++ [.extractBooks])
  | .error e => unexpectedExit s (t ++ [.extractBooks]) e

/-- `SyncManager.sync_full` (lines 76-385): device verification, the
full-mode wipe, then extraction and the downstream steps.  Note the full-mode
wipe (step 1.5) and the batch delete (step 2.9) are not guarded by
`dry_run`; only step 4 is. -/
def sync_full (w : SyncWorld) (db : String) (full_mode dry_run : Bool) :
    SyncSession × List Op :=
  match w.detect with
  | .error (.device m) =>
    ((SyncSession.add_error {} ("Kobo device not found: " ++ m)).complete, [.detectDevice])
  | .error e => unexpectedExit {} [.detectDevice] e
  | .ok _ =>
    if full_mode then
      match w.deleteAll with
      | .ok n =>
        stepExtract w db dry_run
          (SyncSession.add_error {}
            ("[Full sync] Deleted " ++ toString n ++ " existing Kobo books"))
          [.detectDevice, .deleteAllKoboBooks db]
      | .error (.notion m) =>
        ((SyncSession.add_error {} ("Failed to delete existing Kobo books: " ++ m)).complete,
          [.detectDevice, .deleteAllKoboBooks db])
      | .error e => unexpectedExit {} [.detectDevice, .deleteAllKoboBooks db] e
    else stepExtract w db dry_run {} [.detectDevice]

/-! ## The CLI sync command (cli/sync.py)

The run-level lock lives in `lib/lock_manager.py`, which is not part of the
sources at hand; its contract is modelled from the spec.  Modelled from the
spec: `LockManager.acquire` raises the distinct `SyncInProgressError` iff the
lock is already held, before any device or remote work; `release` is called
in the `finally` block covering every exit path after acquisition. -/

structure CliWorld where
  /-- the lock is already held by another invocation -/
  lockHeld : Bool
  /-- `ConfigLoader().load()` -/
  configLoad : Except String Unit
  /-- `keychain.get_notion_token()` (raise / absent / present) -/
  tokenFetch : Except String (Option String)
  /-- the `--full` confirmation prompt's answer -/
  confirmFull : Bool
  /-- a service-initialization exception, if any -/
  initError : Option String
  /-- the world the inner `sync_full` call runs in -/
  syncWorld : SyncWorld

structure CliResult where
  exitCode : ℕ
  trace : List Op
  lockReleased : Bool
  errOutput : Option String
deriving Repr

/-- The distinct "already running" message printed when the lock is held. -/
def lockHeldMessage : String := "Error: Another sync is already in progress"

/-- The `sync` click command (cli/sync.py lines 26-224): lock, configuration,
token, full-mode confirmation, service initialization, the sync run, then the
exit code from the session's error list (lines 153-161). -/
def sync_command (w : CliWorld) (db : String) (full dry_run : Bool) : CliResult :=
  if w.lockHeld then
    { exitCode := 1, trace := [], lockReleased := false, errOutput := some lockHeldMessage }
  else
    match w.configLoad with
    | .error e =>
      { exitCode := 2, trace := [], lockReleased := true,
        errOutput := some ("Configuration error: " ++ e) }
    | .ok _ =>
      match w.tokenFetch with
      | .error e =>
        { exitCode := 2, trace := [], lockReleased := true,
          errOutput := some ("Failed to retrieve Notion token: " ++ e) }
      | .ok none =>
        { exitCode := 2, trace := [], lockReleased := true,
          errOutput := some "Notion token not found in keychain." }
      | .ok (some _) =>
        if full ∧ ¬dry_run ∧ ¬w.confirmFull then
          { exitCode := 0, trace := [], lockReleased := true, errOutput := none }
        else
          match w.initError with
          | some e =>
            { exitCode := 1, trace := [], lockReleased := true,
              errOutput := some ("Service initialization failed: " ++ e) }
          | none =>
            { exitCode := if (sync_full w.syncWorld db full dry_run).1.errors = [] then 0 else 1,
              trace := (sync_full w.syncWorld db full dry_run).2,
              lockReleased := true, errOutput := none }

/-! ## Auxiliary predicates and concrete scenarios used by the theorems -/

/-- A book the classification loop marks for processing: untracked, or
tracked with a changed last-read date. -/
def needsProcessing (m : List (String × MappingEntry)) (b : Book) : Prop :=
  lookupEntry m b.kobo_content_id = none ∨
    ∃ e, lookupEntry m b.kobo_content_id = some e ∧ b.deviceDate ≠ e.remoteDate

/-- Operations addressed to an already-resolved Notion page (the per-page
calls of `_sync_book_to_notion`). -/
def pageScoped (op : Op) : Prop :=
  ∃ p, op = .updateBookPage p ∨ op = .updateBookStatusCompleted p ∨
    op = .setCoverImage p ∨ op = .createHighlightBlocks p ∨
    op = .updateHighlightBlocks p ∨ op = .updateSyncMetadata p

/-- Operations of the step 3 loop, addressed to a to-process content id. -/
def step3Scoped (tp : List String) (op : Op) : Prop :=
  ∃ c ∈ tp, op = .checkConnected c ∨ op = .extractHighlights c

/-- Operations of the step 4 loop: per-content-id calls for a to-process id,
or per-page calls. -/
def step4Scoped (tp : List String) (op : Op) : Prop :=
  (∃ c ∈ tp, op = .extractHighlights c ∨ op = .getBookByKoboId c ∨
    op = .createBookPage c) ∨ pageScoped op

/-- The operation property every trace entry of `_sync_book_to_notion`
satisfies. -/
def syncBookScoped (c : String) (op : Op) : Prop :=
  op = .getBookByKoboId c ∨ op = .createBookPage c ∨ pageScoped op

/-- A fully coöperative world: device present and connected, every remote
call succeeds, no books on the device. -/
def okWorld : SyncWorld where
  detect := .ok "/mnt/kobo"
  deleteAll := .ok 5
  books := .ok []
  mapping := .ok []
  deleteBatch := .ok 0
  connected := fun _ => true
  extractHl := fun _ => .ok []
  lookup := fun _ => .ok none
  pageLastRead := fun _ => none
  updatePage := fun _ => .ok ()
  updateStatusCompleted := fun _ => .ok ()
  createPage := fun _ => .ok "page-new"
  coverUrl := fun _ => .ok none
  setCover := fun _ => .ok ()
  createBlocks := fun _ => .ok ()
  updateBlocks := fun _ => .ok ()
  updateMeta := fun _ => .ok ()
  updateTitle := .ok ()

/-- One tracked book whose device-side last-read date (2025-01-02) differs
from the remote-recorded one. -/
def exBook1 : Book where
  kobo_content_id := "c1"
  title := "T1"
  author := "A1"
  read_status := 1
  percent_read := 50
  date_last_read := some ⟨⟨2025, 1, 2⟩, 0⟩

/-- `okWorld` holding `exBook1`, tracked remotely under page `p1` with stored
last-read date `2025-01-01`. -/
def chWorld : SyncWorld :=
  { okWorld with
      books := .ok [exBook1]
      mapping := .ok [("c1", ⟨some "p1", some "2025-01-01"⟩)] }

/-- A CLI world whose run-level lock is already held by another invocation. -/
def lockedCliWorld : CliWorld where
  lockHeld := true
  configLoad := .ok ()
  tokenFetch := .ok (some "tok")
  confirmFull := true
  initError := none
  syncWorld := okWorld

/-- The same CLI world with the lock free. -/
def okCliWorld : CliWorld := { lockedCliWorld with lockHeld := false }

/-- A finished book (read-status 2) that was never opened (0% progress):
accepted by every `Book` field validator. -/
def bookZeroFinished : Book where
  kobo_content_id := "never-opened.epub"
  title := "Never Opened"
  author := "Someone"
  read_status := 2
  percent_read := 0

/-- Two valid highlights differing in book id and in text whose joined hash
contents coincide (`"a" / "b:c"` vs `"a:b" / "c"` both join to
`"a:b:c:None"`). -/
def hlA : Highlight where
  book_id := "a"
  text := "b:c"
  date_created := ⟨⟨2025, 1, 1⟩, 0⟩

def hlB : Highlight where
  book_id := "a:b"
  text := "c"
  date_created := ⟨⟨2025, 1, 1⟩, 0⟩

/-! # Theorems -/

/-! ## C4 — read-status 2 vs. derived status -/

/-- C4, counterexample: the claim says a book with read-status 2 derives
status "Finished" regardless of the progress percentage; but
`Book.progress_code` tests `percent_read == 0.0` first, so the valid book
`bookZeroFinished` (read-status 2, 0% progress) derives "New". -/
theorem C4_counterexample :
    bookZeroFinished.valid ∧ bookZeroFinished.read_status = 2 ∧
    bookZeroFinished.progress_code ≠ "Finished" ∧
    bookZeroFinished.progress_code = "New" := by
  decide

/-- C4, amended: for every book with read-status 2 and nonzero progress
percentage, the derived status is "Finished", whatever the percentage. -/
theorem C4_finished_authoritative (b : Book) (h2 : b.read_status = 2)
    (hp : b.percent_read ≠ 0) : b.progress_code = "Finished" := by
  unfold Book.progress_code
  rw [if_neg hp, if_pos h2]

/-- C4, witness: a concrete book with read-status 2 and 50% progress. -/
theorem C4_witness :
    ({ kobo_content_id := "c", title := "t", author := "a",
       read_status := 2, percent_read := 50 } : Book).progress_code = "Finished" :=
  C4_finished_authoritative _ rfl (by norm_num)

/-! ## C5 — determinism and injectivity of the dedup hash -/

/-- C5, counterexample: `hlA` and `hlB` are valid highlights differing in
both book id and text, yet their dedup hashes are equal, because the
colon-joined contents coincide — refuting the no-false-collisions half of
the claim. -/
theorem C5_counterexample :
    hlA.valid ∧ hlB.valid ∧ hlA.book_id ≠ hlB.book_id ∧ hlA.text ≠ hlB.text ∧
    hlA.highlight_id = hlB.highlight_id := by
  refine ⟨by decide, by decide, by decide, by decide, ?_⟩
  show sha256Hex (utf8Bytes hlA.hashContent) = sha256Hex (utf8Bytes hlB.hashContent)
  have h : hlA.hashContent = hlB.hashContent := by decide
  rw [h]

/-- C5, amended: the hash is a deterministic function of
(book id, text, chapter-progress) — identical triples always give identical
hashes (the reproducibility half of the claim holds). -/
theorem C5_deterministic (h1 h2 : Highlight) (hb : h1.book_id = h2.book_id)
    (ht : h1.text = h2.text) (hc : h1.chapter_progress = h2.chapter_progress) :
    h1.highlight_id = h2.highlight_id := by
  unfold Highlight.highlight_id Highlight.hashContent
  rw [hb, ht, hc]

/-- C5, witness: two highlights equal on the hashed triple but created at
different times hash identically. -/
theorem C5_witness :
    ({ book_id := "b", text := "t", date_created := ⟨⟨2025, 1, 1⟩, 0⟩ } : Highlight).highlight_id =
    ({ book_id := "b", text := "t", date_created := ⟨⟨2025, 2, 2⟩, 5⟩,
       annotation := some "note" } : Highlight).highlight_id :=
  C5_deterministic _ _ rfl rfl rfl

/-! ## C8 — cache corruption detection and rebuild -/

/-- C8: a store missing the `highlights` table — and an unreadable store —
are reported invalid by `validate_cache` (returned, not raised); rebuilding
any store yields the empty valid store, on which `has_highlight` answers
`false` for every hash.  (`sync_full` performs no cache operation at all, so
cache corruption cannot abort a sync run.) -/
theorem C8_cache_corruption_recoverable :
    (∀ hashes, (validate_cache (.store false hashes)).valid = false) ∧
    (validate_cache .unreadable).valid = false ∧
    (∀ s, validate_cache (rebuild_cache s) = ⟨true, none, 0⟩) ∧
    (∀ s h, has_highlight (rebuild_cache s) h = .ok false) :=
  ⟨fun _ => rfl, rfl, fun _ => rfl, fun _ _ => rfl⟩

/-! ## C2 — the rate-limit retry wrapper -/

/-- C2, counterexample: the claim says the retry wrapper is applied
uniformly to every remote call the client exposes; but `list_databases` is
an exposed remote call without the `@retry_with_backoff` decorator. -/
theorem C2_counterexample :
    ("list_databases", false) ∈ notionClientMethods ∧
    ¬ ∀ p ∈ notionClientMethods, p.2 = true := by
  constructor
  · decide
  · decide

theorem retryAux_ok {f : ℕ → CallOutcome} {mr fuel attempt wait : ℕ} {sleeps : List ℕ}
    (h : f attempt = .ok) :
    retryAux f mr (fuel + 1) attempt wait sleeps = ⟨.ok, sleeps⟩ := by
  simp [retryAux, h]

theorem retryAux_err {f : ℕ → CallOutcome} {mr fuel attempt wait : ℕ} {sleeps : List ℕ}
    (h : f attempt = .otherError) :
    retryAux f mr (fuel + 1) attempt wait sleeps = ⟨.otherError, sleeps⟩ := by
  simp [retryAux, h]

theorem retryAux_rate_step {f : ℕ → CallOutcome} {mr fuel attempt wait : ℕ} {sleeps : List ℕ}
    (h : f attempt = .rateLimited) (hlt : attempt < mr) :
    retryAux f mr (fuel + 1) attempt wait sleeps =
      retryAux f mr fuel (attempt + 1) (wait * 2) (sleeps ++ [wait]) := by
  simp [retryAux, h, hlt]

theorem retryAux_rate_stop {f : ℕ → CallOutcome} {mr fuel attempt wait : ℕ} {sleeps : List ℕ}
    (h : f attempt = .rateLimited) (hge : ¬ attempt < mr) :
    retryAux f mr (fuel + 1) attempt wait sleeps = ⟨.rateLimited, sleeps⟩ := by
  simp [retryAux, h, hge]

/-- C2, amended: the rate-limit retry contract holds for every decorated
method — first success returns immediately after sleeps 1s, 2s, 4s for the
preceding rate-limited attempts; four consecutive rate limits re-raise after
all three sleeps; any other error propagates immediately with no further
sleep — but the wrapper is applied to exactly the ten decorated methods, not
to every remote call the client exposes. -/
theorem C2_retry_contract :
    (∀ f : ℕ → CallOutcome, ∀ k, k ≤ 3 → (∀ i, i < k → f i = .rateLimited) →
      f k = .ok → retry_with_backoff f = ⟨.ok, [1, 2, 4].take k⟩) ∧
    (∀ f : ℕ → CallOutcome, (∀ i, i ≤ 3 → f i = .rateLimited) →
      retry_with_backoff f = ⟨.rateLimited, [1, 2, 4]⟩) ∧
    (∀ f : ℕ → CallOutcome, ∀ k, k ≤ 3 → (∀ i, i < k → f i = .rateLimited) →
      f k = .otherError → retry_with_backoff f = ⟨.otherError, [1, 2, 4].take k⟩) ∧
    (notionClientMethods.filter (fun p => p.2)).map Prod.fst =
      ["validate_database_schema", "create_book_page", "set_cover_image",
       "create_highlight_blocks", "update_book_status_to_completed",
       "list_kobo_books", "get_book_by_kobo_id", "update_book_page",
       "update_sync_metadata", "count_non_kobo_books"] := by
  refine ⟨?_, ?_, ?_, by decide⟩
  · intro f k hk h0 hfin
    unfold retry_with_backoff
    interval_cases k
    · rw [retryAux_ok hfin]; decide
    · rw [retryAux_rate_step (h0 0 (by norm_num)) (by norm_num), retryAux_ok hfin]; decide
    · rw [retryAux_rate_step (h0 0 (by norm_num)) (by norm_num),
        retryAux_rate_step (h0 1 (by norm_num)) (by norm_num), retryAux_ok hfin]; decide
    · rw [retryAux_rate_step (h0 0 (by norm_num)) (by norm_num),
        retryAux_rate_step (h0 1 (by norm_num)) (by norm_num),
        retryAux_rate_step (h0 2 (by norm_num)) (by norm_num), retryAux_ok hfin]; decide
  · intro f h0
    unfold retry_with_backoff
    rw [retryAux_rate_step (h0 0 (by norm_num)) (by norm_num),
      retryAux_rate_step (h0 1 (by norm_num)) (by norm_num),
      retryAux_rate_step (h0 2 (by norm_num)) (by norm_num),
      retryAux_rate_stop (h0 3 (by norm_num)) (by norm_num)]
    decide
  · intro f k hk h0 hfin
    unfold retry_with_backoff
    interval_cases k
    · rw [retryAux_err hfin]; decide
    · rw [retryAux_rate_step (h0 0 (by norm_num)) (by norm_num), retryAux_err hfin]; decide
    · rw [retryAux_rate_step (h0 0 (by norm_num)) (by norm_num),
        retryAux_rate_step (h0 1 (by norm_num)) (by norm_num), retryAux_err hfin]; decide
    · rw [retryAux_rate_step (h0 0 (by norm_num)) (by norm_num),
        retryAux_rate_step (h0 1 (by norm_num)) (by norm_num),
        retryAux_rate_step (h0 2 (by norm_num)) (by norm_num), retryAux_err hfin]; decide

/-- C2, witness: a call rate-limited twice and then succeeding returns
success after sleeping 1s and 2s. -/
theorem C2_witness :
    retry_with_backoff (fun i => if i < 2 then .rateLimited else .ok) = ⟨.ok, [1, 2]⟩ := by
  have h := C2_retry_contract.1 (fun i => if i < 2 then .rateLimited else .ok) 2
    (by norm_num) (fun i hi => by simp [hi]) (by simp)
  simpa using h

/-! ## Lemmas about the classification loop -/

theorem insertSet_mem {l : List String} {x y : String} :
    x ∈ insertSet l y ↔ x ∈ l ∨ x = y := by
  unfold insertSet
  split
  · rename_i h
    constructor
    · exact Or.inl
    · rintro (hx | rfl)
      exacts [hx, h]
  · simp

theorem classifyStep_toProcess_mono {m : List (String × MappingEntry)} {c : ClassifyResult}
    {b : Book} {x : String} (hx : x ∈ c.toProcess) :
    x ∈ (classifyStep m c b).toProcess := by
  unfold classifyStep
  split
  · exact insertSet_mem.mpr (Or.inl hx)
  · split
    · exact insertSet_mem.mpr (Or.inl hx)
    · exact hx

theorem classifyStep_toDelete_mono {m : List (String × MappingEntry)} {c : ClassifyResult}
    {b : Book} {y : Option String} (hy : y ∈ c.toDelete) :
    y ∈ (classifyStep m c b).toDelete := by
  unfold classifyStep
  split
  · exact hy
  · split
    · exact List.mem_append_left _ hy
    · exact hy

theorem classifyAux_toProcess_mono {m : List (String × MappingEntry)} {books : List Book}
    {x : String} : ∀ {c : ClassifyResult}, x ∈ c.toProcess →
    x ∈ (classifyAux m books c).toProcess := by
  induction books with
  | nil => intro c hx; exact hx
  | cons b rest ih => intro c hx; exact ih (classifyStep_toProcess_mono hx)

theorem classifyAux_toDelete_mono {m : List (String × MappingEntry)} {books : List Book}
    {y : Option String} : ∀ {c : ClassifyResult}, y ∈ c.toDelete →
    y ∈ (classifyAux m books c).toDelete := by
  induction books with
  | nil => intro c hy; exact hy
  | cons b rest ih => intro c hy; exact ih (classifyStep_toDelete_mono hy)

theorem classifyAux_mem_toProcess {m : List (String × MappingEntry)} {books : List Book}
    {b : Book} (hb : b ∈ books) (hn : needsProcessing m b) :
    ∀ c, b.kobo_content_id ∈ (classifyAux m books c).toProcess := by
  induction books with
  | nil => cases hb
  | cons b0 rest ih =>
    intro c
    rcases List.mem_cons.mp hb with rfl | hb2
    · have hstep : b.kobo_content_id ∈ (classifyStep m c b).toProcess := by
        rcases hn with hnone | ⟨e, he, hd⟩
        · simp only [classifyStep, hnone]
          exact insertSet_mem.mpr (Or.inr rfl)
        · simp only [classifyStep, he]
          rw [if_pos hd]
          exact insertSet_mem.mpr (Or.inr rfl)
      simp only [classifyAux]
      exact classifyAux_toProcess_mono hstep
    · exact ih hb2 _

theorem classifyAux_mem_toDelete {m : List (String × MappingEntry)} {books : List Book}
    {b : Book} {e : MappingEntry} (hb : b ∈ books)
    (he : lookupEntry m b.kobo_content_id = some e) (hd : b.deviceDate ≠ e.remoteDate) :
    ∀ c, e.page_id ∈ (classifyAux m books c).toDelete := by
  induction books with
  | nil => cases hb
  | cons b0 rest ih =>
    intro c
    rcases List.mem_cons.mp hb with rfl | hb2
    · have hstep : e.page_id ∈ (classifyStep m c b).toDelete := by
        simp only [classifyStep, he]
        rw [if_pos hd]
        exact List.mem_append_right _ (List.mem_singleton.mpr rfl)
      simp only [classifyAux]
      exact classifyAux_toDelete_mono hstep
    · exact ih hb2 _

theorem classifyAux_not_mem_toProcess {m : List (String × MappingEntry)}
    {books : List Book} {x : String}
    (hall : ∀ b ∈ books, b.kobo_content_id = x → ¬needsProcessing m b) :
    ∀ c, x ∉ c.toProcess → x ∉ (classifyAux m books c).toProcess := by
  induction books with
  | nil => intro c hc; exact hc
  | cons b0 rest ih =>
    intro c hc
    simp only [classifyAux]
    refine ih (fun b hb => hall b (List.mem_cons_of_mem _ hb)) _ ?_
    by_cases hx : b0.kobo_content_id = x
    · have hnp := hall b0 (List.mem_cons_self _ _) hx
      unfold needsProcessing at hnp
      push_neg at hnp
      obtain ⟨h1, h2⟩ := hnp
      cases hlk : lookupEntry m b0.kobo_content_id with
      | none => exact absurd hlk h1
      | some e =>
        simp only [classifyStep, hlk]
        rw [if_neg (fun hne => hne (h2 e hlk))]
        exact hc
    · cases hlk : lookupEntry m b0.kobo_content_id with
      | none =>
        simp only [classifyStep, hlk]
        intro hmem
        rcases insertSet_mem.mp hmem with hmem2 | hmem2
        exacts [hc hmem2, hx hmem2.symm]
      | some e =>
        simp only [classifyStep, hlk]
        split
        · intro hmem
          rcases insertSet_mem.mp hmem with hmem2 | hmem2
          exacts [hc hmem2, hx hmem2.symm]
        · exact hc

/-! ## Trace-shape lemmas for `_sync_book_to_notion` and the per-book loops -/

theorem trace_ext_trans {t t1 t2 : List Op} {P : Op → Prop}
    (h1 : ∃ d, t1 = t ++ d ∧ ∀ x ∈ d, P x) (h2 : ∃ d, t2 = t1 ++ d ∧ ∀ x ∈ d, P x) :
    ∃ d, t2 = t ++ d ∧ ∀ x ∈ d, P x := by
  obtain ⟨d1, rfl, p1⟩ := h1
  obtain ⟨d2, rfl, p2⟩ := h2
  refine ⟨d1 ++ d2, by simp, ?_⟩
  intro x hx
  rcases List.mem_append.mp hx with hx2 | hx2
  exacts [p1 x hx2, p2 x hx2]

theorem pageScoped_mk (p : String) :
    pageScoped (.updateBookPage p) ∧ pageScoped (.updateBookStatusCompleted p) ∧
    pageScoped (.setCoverImage p) ∧ pageScoped (.createHighlightBlocks p) ∧
    pageScoped (.updateHighlightBlocks p) ∧ pageScoped (.updateSyncMetadata p) := by
  refine ⟨⟨p, ?_⟩, ⟨p, ?_⟩, ⟨p, ?_⟩, ⟨p, ?_⟩, ⟨p, ?_⟩, ⟨p, ?_⟩⟩ <;> simp

theorem syncBookMeta_snd (w : SyncWorld) (pid : String) (t : List Op) :
    ∃ d, (syncBookMeta w pid t).2 = t ++ d ∧ ∀ op ∈ d, pageScoped op := by
  unfold syncBookMeta
  cases w.updateMeta pid with
  | ok _ =>
    refine ⟨[.updateSyncMetadata pid], rfl, ?_⟩
    intro op hop
    rw [List.mem_singleton.mp hop]
    exact (pageScoped_mk pid).2.2.2.2.2
  | error _ =>
    refine ⟨[.updateSyncMetadata pid], rfl, ?_⟩
    intro op hop
    rw [List.mem_singleton.mp hop]
    exact (pageScoped_mk pid).2.2.2.2.2

theorem syncBookBlocks_snd (w : SyncWorld) (hs : List Highlight) (pid : String)
    (u : Bool) (t : List Op) :
    ∃ d, (syncBookBlocks w hs pid u t).2 = t ++ d ∧ ∀ op ∈ d, pageScoped op := by
  unfold syncBookBlocks
  split
  · exact syncBookMeta_snd w pid t
  · split
    · cases w.updateBlocks pid with
      | ok _ =>
        refine trace_ext_trans ⟨[.updateHighlightBlocks pid], rfl, ?_⟩
          (syncBookMeta_snd w pid (t ++ [.updateHighlightBlocks pid]))
        intro op hop
        rw [List.mem_singleton.mp hop]
        exact (pageScoped_mk pid).2.2.2.2.1
      | error _ =>
        refine ⟨[.updateHighlightBlocks pid], rfl, ?_⟩
        intro op hop
        rw [List.mem_singleton.mp hop]
        exact (pageScoped_mk pid).2.2.2.2.1
    · cases w.createBlocks pid with
      | ok _ =>
        refine trace_ext_trans ⟨[.createHighlightBlocks pid], rfl, ?_⟩
          (syncBookMeta_snd w pid (t ++ [.createHighlightBlocks pid]))
        intro op hop
        rw [List.mem_singleton.mp hop]
        exact (pageScoped_mk pid).2.2.2.1
      | error _ =>
        refine ⟨[.createHighlightBlocks pid], rfl, ?_⟩
        intro op hop
        rw [List.mem_singleton.mp hop]
        exact (pageScoped_mk pid).2.2.2.1

theorem coverOps_pageScoped (w : SyncWorld) (b : Book) (pid : String) :
    ∀ op ∈ coverOps w b pid, pageScoped op := by
  unfold coverOps
  split
  · split
    · intro op hop
      rw [List.mem_singleton.mp hop]
      exact (pageScoped_mk pid).2.2.1
    · intro op hop
      cases hop
  · intro op hop
    cases hop

theorem syncBook_snd (w : SyncWorld) (b : Book) (hs : List Highlight) (t : List Op) :
    ∃ d, (sync_book_to_notion w b hs t).2 = t ++ d ∧
      ∀ op ∈ d, syncBookScoped b.kobo_content_id op := by
  have weaken : ∀ t2 t3 : List Op,
      (∃ d, t3 = t2 ++ d ∧ ∀ op ∈ d, pageScoped op) →
      ∃ d, t3 = t2 ++ d ∧ ∀ op ∈ d, syncBookScoped b.kobo_content_id op := by
    intro t2 t3 h
    obtain ⟨d, hd, hp⟩ := h
    exact ⟨d, hd, fun op hop => Or.inr (Or.inr (hp op hop))⟩
  have cover : ∀ (pid : String) (t2 : List Op),
      ∃ d, t2 ++ coverOps w b pid = t2 ++ d ∧
        ∀ op ∈ d, syncBookScoped b.kobo_content_id op :=
    fun pid t2 => ⟨_, rfl, fun op hop =>
      Or.inr (Or.inr (coverOps_pageScoped w b pid op hop))⟩
  have pre1 : ∃ d, t ++ [Op.getBookByKoboId b.kobo_content_id] = t ++ d ∧
      ∀ op ∈ d, syncBookScoped b.kobo_content_id op := by
    refine ⟨_, rfl, ?_⟩
    intro op hop
    rw [List.mem_singleton.mp hop]
    exact Or.inl rfl
  cases hlk : w.lookup b.kobo_content_id with
  | error err =>
    simp only [sync_book_to_notion, hlk]
    exact pre1
  | ok o =>
    cases o with
    | some pid =>
      have pre2 : ∃ d, t ++ [Op.getBookByKoboId b.kobo_content_id, Op.updateBookPage pid] =
          t ++ d ∧ ∀ op ∈ d, syncBookScoped b.kobo_content_id op := by
        refine ⟨_, rfl, ?_⟩
        intro op hop
        rcases List.mem_cons.mp hop with rfl | hop2
        · exact Or.inl rfl
        · rw [List.mem_singleton.mp hop2]
          exact Or.inr (Or.inr (pageScoped_mk pid).1)
      cases hup : w.updatePage pid with
      | error _ =>
        simp only [sync_book_to_notion, hlk, hup]
        exact pre2
      | ok _ =>
        by_cases hfin : b.progress_code = "Finished"
        · have pre3 : ∃ d, t ++ [Op.getBookByKoboId b.kobo_content_id,
              Op.updateBookPage pid, Op.updateBookStatusCompleted pid] = t ++ d ∧
              ∀ op ∈ d, syncBookScoped b.kobo_content_id op := by
            refine ⟨_, rfl, ?_⟩
            intro op hop
            rcases List.mem_cons.mp hop with rfl | hop2
            · exact Or.inl rfl
            rcases List.mem_cons.mp hop2 with rfl | hop3
            · exact Or.inr (Or.inr (pageScoped_mk pid).1)
            · rw [List.mem_singleton.mp hop3]
              exact Or.inr (Or.inr (pageScoped_mk pid).2.1)
          cases hst : w.updateStatusCompleted pid with
          | error _ =>
            simp only [sync_book_to_notion, hlk, hup, hst]
            rw [if_pos hfin]
            exact pre3
          | ok _ =>
            simp only [sync_book_to_notion, hlk, hup, hst]
            rw [if_pos hfin]
            exact trace_ext_trans (trace_ext_trans pre3 (cover pid _))
              (weaken _ _ (syncBookBlocks_snd w hs pid true _))
        · simp only [sync_book_to_notion, hlk, hup]
          rw [if_neg hfin]
          exact trace_ext_trans (trace_ext_trans pre2 (cover pid _))
            (weaken _ _ (syncBookBlocks_snd w hs pid true _))
    | none =>
      have pre2 : ∃ d, t ++ [Op.getBookByKoboId b.kobo_content_id,
          Op.createBookPage b.kobo_content_id] = t ++ d ∧
          ∀ op ∈ d, syncBookScoped b.kobo_content_id op := by
        refine ⟨_, rfl, ?_⟩
        intro op hop
        rcases List.mem_cons.mp hop with rfl | hop2
        · exact Or.inl rfl
        · rw [List.mem_singleton.mp hop2]
          exact Or.inr (Or.inl rfl)
      cases hcp : w.createPage b.kobo_content_id with
      | error _ =>
        simp only [sync_book_to_notion, hlk, hcp]
        exact pre2
      | ok pid =>
        simp only [sync_book_to_notion, hlk, hcp]
        exact trace_ext_trans (trace_ext_trans pre2 (cover pid _))
          (weaken _ _ (syncBookBlocks_snd w hs pid false _))

theorem syncBookBlocks_mem_mono (w : SyncWorld) (hs : List Highlight) (pid : String)
    (u : Bool) (t : List Op) {op : Op} (hop : op ∈ t) :
    op ∈ (syncBookBlocks w hs pid u t).2 := by
  obtain ⟨d, hd, _⟩ := syncBookBlocks_snd w hs pid u t
  rw [hd]
  exact List.mem_append_left _ hop

theorem syncBook_create_mem (w : SyncWorld) (b : Book) (hs : List Highlight) (t : List Op)
    (hlk : w.lookup b.kobo_content_id = .ok none) :
    Op.createBookPage b.kobo_content_id ∈ (sync_book_to_notion w b hs t).2 := by
  cases hcp : w.createPage b.kobo_content_id with
  | error _ =>
    simp only [sync_book_to_notion, hlk, hcp]
    simp
  | ok pid =>
    simp only [sync_book_to_notion, hlk, hcp]
    exact syncBookBlocks_mem_mono w hs pid false _ (by simp)

theorem step3_spec (w : SyncWorld) (tp : List String) :
    ∀ (books : List Book) (s : SyncSession) (t : List Op),
      (∃ s2 d, step3 w tp books s t = .halted s2 (t ++ d) ∧
        s2.completions = s.completions + 1 ∧ (∀ x ∈ s.errors, x ∈ s2.errors) ∧
        (∀ op ∈ d, step3Scoped tp op) ∧ ∃ c, w.connected c = false) ∨
      (∃ s2 d, step3 w tp books s t = .cont s2 (t ++ d) ∧
        s2.completions = s.completions ∧ (∀ x ∈ s.errors, x ∈ s2.errors) ∧
        ∀ op ∈ d, step3Scoped tp op) := by
  intro books
  induction books with
  | nil =>
    intro s t
    right
    exact ⟨s, [], by simp [step3], rfl, fun x hx => hx, by simp⟩
  | cons b rest ih =>
    intro s t
    by_cases htp : b.kobo_content_id ∈ tp
    · by_cases hcn : w.connected b.kobo_content_id = true
      · have hops : ∀ op ∈ [Op.checkConnected b.kobo_content_id,
            Op.extractHighlights b.kobo_content_id], step3Scoped tp op := by
          intro op hop
          rcases List.mem_cons.mp hop with rfl | hop2
          · exact ⟨b.kobo_content_id, htp, Or.inl rfl⟩
          · rw [List.mem_singleton.mp hop2]
            exact ⟨b.kobo_content_id, htp, Or.inr rfl⟩
        have repack : ∀ (s1 : SyncSession), s1.completions = s.completions →
            (∀ x ∈ s.errors, x ∈ s1.errors) →
            step3 w tp (b :: rest) s t = step3 w tp rest s1
              (t ++ [Op.checkConnected b.kobo_content_id,
                Op.extractHighlights b.kobo_content_id]) →
            (∃ s2 d, step3 w tp (b :: rest) s t = .halted s2 (t ++ d) ∧
              s2.completions = s.completions + 1 ∧ (∀ x ∈ s.errors, x ∈ s2.errors) ∧
              (∀ op ∈ d, step3Scoped tp op) ∧ ∃ c, w.connected c = false) ∨
            (∃ s2 d, step3 w tp (b :: rest) s t = .cont s2 (t ++ d) ∧
              s2.completions = s.completions ∧ (∀ x ∈ s.errors, x ∈ s2.errors) ∧
              ∀ op ∈ d, step3Scoped tp op) := by
          intro s1 hc1 he1 heq
          rcases ih s1 (t ++ [Op.checkConnected b.kobo_content_id,
              Op.extractHighlights b.kobo_content_id]) with
            ⟨s2, d, hres, hcomp, herr, hsc, hcf⟩ | ⟨s2, d, hres, hcomp, herr, hsc⟩
          · left
            refine ⟨s2, [Op.checkConnected b.kobo_content_id,
              Op.extractHighlights b.kobo_content_id] ++ d, ?_, ?_, ?_, ?_, hcf⟩
            · rw [heq, hres]; simp
            · rw [hcomp, hc1]
            · exact fun x hx => herr x (he1 x hx)
            · intro op hop
              rcases List.mem_append.mp hop with hop2 | hop2
              exacts [hops op hop2, hsc op hop2]
          · right
            refine ⟨s2, [Op.checkConnected b.kobo_content_id,
              Op.extractHighlights b.kobo_content_id] ++ d, ?_, ?_, ?_, ?_⟩
            · rw [heq, hres]; simp
            · rw [hcomp, hc1]
            · exact fun x hx => herr x (he1 x hx)
            · intro op hop
              rcases List.mem_append.mp hop with hop2 | hop2
              exacts [hops op hop2, hsc op hop2]
        cases hhl : w.extractHl b.kobo_content_id with
        | ok hs =>
          refine repack { s with highlights_synced := s.highlights_synced + hs.length }
            rfl (fun x hx => hx) ?_
          simp only [step3, if_pos htp, if_pos hcn, hhl]
        | error e =>
          cases e with
          | device m =>
            refine repack s rfl (fun x hx => hx) ?_
            simp only [step3, if_pos htp, if_pos hcn, hhl]
          | notion m =>
            refine repack
              (s.add_error ("Failed to process book '" ++ b.title ++ "': " ++ m))
              rfl (fun x hx => List.mem_append_left _ hx) ?_
            simp only [step3, if_pos htp, if_pos hcn, hhl, Exc.msg]
          | other m =>
            refine repack
              (s.add_error ("Failed to process book '" ++ b.title ++ "': " ++ m))
              rfl (fun x hx => List.mem_append_left _ hx) ?_
            simp only [step3, if_pos htp, if_pos hcn, hhl, Exc.msg]
      · left
        refine ⟨(s.add_error "Kobo device disconnected during sync - halting").complete,
          [Op.checkConnected b.kobo_content_id], ?_, rfl,
          fun x hx => List.mem_append_left _ hx, ?_, ?_⟩
        · simp only [step3, if_pos htp, if_neg hcn]
        · intro op hop
          rw [List.mem_singleton.mp hop]
          exact ⟨b.kobo_content_id, htp, Or.inl rfl⟩
        · refine ⟨b.kobo_content_id, ?_⟩
          revert hcn
          cases w.connected b.kobo_content_id <;> simp
    · simp only [step3, if_neg htp]
      exact ih s t

theorem syncBookScoped_step4 {tp : List String} {c : String} {op : Op} (hc : c ∈ tp)
    (h : syncBookScoped c op) : step4Scoped tp op := by
  rcases h with h | h | h
  · exact Or.inl ⟨c, hc, Or.inr (Or.inl h)⟩
  · exact Or.inl ⟨c, hc, Or.inr (Or.inr h)⟩
  · exact Or.inr h

theorem step4_spec (w : SyncWorld) (tp : List String) :
    ∀ (books : List Book) (s : SyncSession) (t : List Op),
      ∃ s2 d, step4 w tp books s t = (s2, t ++ d) ∧ s2.completions = s.completions ∧
        (∀ x ∈ s.errors, x ∈ s2.errors) ∧ ∀ op ∈ d, step4Scoped tp op := by
  intro books
  induction books with
  | nil =>
    intro s t
    exact ⟨s, [], by simp [step4], rfl, fun x hx => hx, by simp⟩
  | cons b rest ih =>
    intro s t
    by_cases htp : b.kobo_content_id ∈ tp
    · cases hhl : w.extractHl b.kobo_content_id with
      | error e =>
        obtain ⟨s2, d, hres, hcomp, herr, hsc⟩ :=
          ih (s.add_error ("Failed to sync book '" ++ b.title ++ "': " ++ e.msg))
            (t ++ [Op.extractHighlights b.kobo_content_id])
        refine ⟨s2, [Op.extractHighlights b.kobo_content_id] ++ d, ?_, hcomp, ?_, ?_⟩
        · simp only [step4, if_pos htp, hhl]
          rw [hres]
          simp
        · exact fun x hx => herr x (List.mem_append_left _ hx)
        · intro op hop
          rcases List.mem_append.mp hop with hop2 | hop2
          · rw [List.mem_singleton.mp hop2]
            exact Or.inl ⟨b.kobo_content_id, htp, Or.inl rfl⟩
          · exact hsc op hop2
      | ok hs =>
        obtain ⟨dB, hB, hpB⟩ :=
          syncBook_snd w b hs (t ++ [Op.extractHighlights b.kobo_content_id])
        obtain ⟨s2, d, hres, hcomp, herr, hsc⟩ :=
          ih s ((sync_book_to_notion w b hs (t ++ [Op.extractHighlights b.kobo_content_id])).2)
        refine ⟨s2, ([Op.extractHighlights b.kobo_content_id] ++ dB) ++ d, ?_, hcomp, herr, ?_⟩
        · simp only [step4, if_pos htp, hhl]
          rw [hres, hB]
          simp
        · intro op hop
          rcases List.mem_append.mp hop with hop2 | hop2
          · rcases List.mem_append.mp hop2 with hop3 | hop3
            · rw [List.mem_singleton.mp hop3]
              exact Or.inl ⟨b.kobo_content_id, htp, Or.inl rfl⟩
            · exact syncBookScoped_step4 htp (hpB op hop3)
          · exact hsc op hop2
    · simp only [step4, if_neg htp]
      exact ih s t

theorem step4_mem_mono (w : SyncWorld) (tp : List String) (books : List Book)
    (s : SyncSession) (t : List Op) {op : Op} (hop : op ∈ t) :
    op ∈ (step4 w tp books s t).2 := by
  obtain ⟨s2, d, hres, -, -, -⟩ := step4_spec w tp books s t
  rw [hres]
  exact List.mem_append_left _ hop

theorem step4_create_mem (w : SyncWorld) (tp : List String) :
    ∀ (books : List Book) (s : SyncSession) (t : List Op) (b : Book) (hs : List Highlight),
      b ∈ books → b.kobo_content_id ∈ tp → w.extractHl b.kobo_content_id = .ok hs →
      w.lookup b.kobo_content_id = .ok none →
      Op.createBookPage b.kobo_content_id ∈ (step4 w tp books s t).2 := by
  intro books
  induction books with
  | nil => intro s t b hs hb; cases hb
  | cons b0 rest ih =>
    intro s t b hs hb htp hhl hlk
    rcases List.mem_cons.mp hb with rfl | hb2
    · simp only [step4, if_pos htp, hhl]
      exact step4_mem_mono w tp rest s _ (syncBook_create_mem w b hs _ hlk)
    · by_cases htp0 : b0.kobo_content_id ∈ tp
      · cases hhl0 : w.extractHl b0.kobo_content_id with
        | error e =>
          simp only [step4, if_pos htp0, hhl0]
          exact ih _ _ b hs hb2 htp hhl hlk
        | ok hs0 =>
          simp only [step4, if_pos htp0, hhl0]
          exact ih _ _ b hs hb2 htp hhl hlk
      · simp only [step4, if_neg htp0]
        exact ih _ _ b hs hb2 htp hhl hlk

theorem afterMapping_spec (w : SyncWorld) (db : String) (dry : Bool) (books : List Book)
    (m : List (String × MappingEntry)) (s : SyncSession) (t : List Op) :
    ∃ s2 d, afterMapping w db dry books m s t = (s2, (t ++ batchOps m books) ++ d) ∧
      s2.completions = s.completions + 1 ∧ (∀ x ∈ s.errors, x ∈ s2.errors) ∧
      ∀ op ∈ d, step3Scoped (classifyBooks m books).toProcess op ∨
        step4Scoped (classifyBooks m books).toProcess op ∨ op = Op.updateDatabaseTitle db := by
  rcases step3_spec w (classifyBooks m books).toProcess books (recordCounts m books s)
      (t ++ batchOps m books) with
    ⟨s2, d, hres, hcomp, herr, hsc, -⟩ | ⟨s2, d, hres, hcomp, herr, hsc⟩
  · refine ⟨s2, d, ?_, hcomp, herr, fun op hop => Or.inl (hsc op hop)⟩
    simp only [afterMapping, hres]
  · cases dry with
    | true =>
      refine ⟨s2.complete, d ++ [Op.updateDatabaseTitle db], ?_, ?_, ?_, ?_⟩
      · simp only [afterMapping, hres]
        rw [if_true]
        simp
      · show s2.completions + 1 = s.completions + 1
        rw [hcomp]
        exact rfl
      · exact fun x hx => herr x hx
      · intro op hop
        rcases List.mem_append.mp hop with hop2 | hop2
        · exact Or.inl (hsc op hop2)
        · rw [List.mem_singleton.mp hop2]
          exact Or.inr (Or.inr rfl)
    | false =>
      obtain ⟨s3, d4, hres4, hcomp4, herr4, hsc4⟩ :=
        step4_spec w (classifyBooks m books).toProcess books s2 ((t ++ batchOps m books) ++ d)
      refine ⟨s3.complete, (d ++ d4) ++ [Op.updateDatabaseTitle db], ?_, ?_, ?_, ?_⟩
      · simp only [afterMapping, hres]
        rw [if_neg (by simp), hres4]
        simp
      · show s3.completions + 1 = s.completions + 1
        rw [hcomp4, hcomp]
        exact rfl
      · exact fun x hx => herr4 x (herr x hx)
      · intro op hop
        rcases List.mem_append.mp hop with hop2 | hop2
        · rcases List.mem_append.mp hop2 with hop3 | hop3
          · exact Or.inl (hsc op hop3)
          · exact Or.inr (Or.inl (hsc4 op hop3))
        · rw [List.mem_singleton.mp hop2]
          exact Or.inr (Or.inr rfl)

theorem stepExtract_spec (w : SyncWorld) (db : String) (dry : Bool)
    (s : SyncSession) (t : List Op) :
    (stepExtract w db dry s t).1.completions = s.completions + 1 ∧
    ∀ x ∈ s.errors, x ∈ (stepExtract w db dry s t).1.errors := by
  cases hb : w.books with
  | ok books =>
    cases hm : w.mapping with
    | ok m =>
      obtain ⟨s2, d, hres, hcomp, herr, -⟩ := afterMapping_spec w db dry books m
        { s with books_processed := books.length }
        ((t ++ [Op.extractBooks]) ++ [Op.getKoboBooksMapping db])
      constructor
      · simp only [stepExtract, hb, afterBooks, hm, hres]
        exact hcomp
      · intro x hx
        simp only [stepExtract, hb, afterBooks, hm, hres]
        exact herr x hx
    | error e =>
      obtain ⟨s2, d, hres, hcomp, herr, -⟩ := afterMapping_spec w db dry books []
        { s with books_processed := books.length }
        ((t ++ [Op.extractBooks]) ++ [Op.getKoboBooksMapping db])
      constructor
      · simp only [stepExtract, hb, afterBooks, hm, hres]
        exact hcomp
      · intro x hx
        simp only [stepExtract, hb, afterBooks, hm, hres]
        exact herr x hx
  | error e =>
    cases e with
    | device m =>
      constructor
      · simp only [stepExtract, hb]
        exact rfl
      · intro x hx
        simp only [stepExtract, hb]
        exact List.mem_append_left _ hx
    | notion m =>
      constructor
      · simp only [stepExtract, hb, unexpectedExit]
        exact rfl
      · intro x hx
        simp only [stepExtract, hb, unexpectedExit]
        exact List.mem_append_left _ hx
    | other m =>
      constructor
      · simp only [stepExtract, hb, unexpectedExit]
        exact rfl
      · intro x hx
        simp only [stepExtract, hb, unexpectedExit]
        exact List.mem_append_left _ hx

/-! ## C7 — the session is finalized exactly once on every exit path -/

/-- C7: whatever the world does — device verification failure, full-mode
deletion failure, extraction failure, mid-run disconnection, per-book
failures, unexpected exceptions, or clean success — the session returned by
`sync_full` has been completed (end timestamp set) exactly once. -/
theorem C7_finalized_exactly_once (w : SyncWorld) (db : String) (full dry : Bool) :
    (sync_full w db full dry).1.completions = 1 := by
  cases hd : w.detect with
  | error e =>
    cases e with
    | device m =>
      simp only [sync_full, hd]
      exact rfl
    | notion m =>
      simp only [sync_full, hd, unexpectedExit]
      exact rfl
    | other m =>
      simp only [sync_full, hd, unexpectedExit]
      exact rfl
  | ok mp =>
    by_cases hf : full = true
    · cases hda : w.deleteAll with
      | ok n =>
        simp only [sync_full, hd, hda]
        rw [if_pos hf]
        exact (stepExtract_spec w db dry _ _).1
      | error e =>
        cases e with
        | notion m =>
          simp only [sync_full, hd, hda]
          rw [if_pos hf]
          exact rfl
        | device m =>
          simp only [sync_full, hd, hda, unexpectedExit]
          rw [if_pos hf]
          exact rfl
        | other m =>
          simp only [sync_full, hd, hda, unexpectedExit]
          rw [if_pos hf]
          exact rfl
    · simp only [sync_full, hd]
      rw [if_neg hf]
      exact (stepExtract_spec w db dry _ _).1

/-- The full-mode deletion notice lands in the session's error list whenever
the device is present and the wipe succeeds. -/
theorem sync_full_full_marker (w : SyncWorld) (db mp : String) (dry : Bool) (n : ℕ)
    (hd : w.detect = .ok mp) (hda : w.deleteAll = .ok n) :
    ("[Full sync] Deleted " ++ toString n ++ " existing Kobo books")
      ∈ (sync_full w db true dry).1.errors := by
  simp only [sync_full, hd, hda]
  rw [if_true]
  exact (stepExtract_spec w db dry _ _).2 _ (by simp [SyncSession.add_error])

/-! ## C6 — batch deletion precedes every page creation -/

theorem before_append {t1 t2 : List Op}
    (h1 : ∀ c, Op.createBookPage c ∉ t1) (h2 : ∀ ids, Op.deletePagesBatch ids ∉ t2)
    {i j : ℕ} {ids : List (Option String)} {c : String}
    (hi : (t1 ++ t2).get? i = some (.deletePagesBatch ids))
    (hj : (t1 ++ t2).get? j = some (.createBookPage c)) : i < j := by
  have hilt : i < t1.length := by
    by_contra hge
    push_neg at hge
    rw [List.get?_append_right hge] at hi
    exact h2 ids (List.get?_mem hi)
  have hjge : t1.length ≤ j := by
    by_contra hlt
    push_neg at hlt
    rw [List.get?_append hlt] at hj
    exact h1 c (List.get?_mem hj)
  omega

theorem scoped_no_batch {tp : List String} {db : String} {d : List Op}
    (hd : ∀ op ∈ d, step3Scoped tp op ∨ step4Scoped tp op ∨ op = Op.updateDatabaseTitle db) :
    ∀ ids, Op.deletePagesBatch ids ∉ d := by
  intro ids hmem
  rcases hd _ hmem with h | h | h
  · obtain ⟨c, -, h2 | h2⟩ := h <;> exact Op.noConfusion h2
  · rcases h with ⟨c, -, h2 | h2 | h2⟩ | ⟨p, h2 | h2 | h2 | h2 | h2 | h2⟩ <;>
      exact Op.noConfusion h2
  · exact Op.noConfusion h

theorem afterBooks_trace (w : SyncWorld) (db : String) (dry : Bool) (books : List Book)
    (s : SyncSession) (t : List Op) :
    ∃ me d, (afterBooks w db dry books s t).2 =
      ((t ++ [Op.getKoboBooksMapping db]) ++ batchOps me books) ++ d ∧
      ∀ op ∈ d, step3Scoped (classifyBooks me books).toProcess op ∨
        step4Scoped (classifyBooks me books).toProcess op ∨ op = Op.updateDatabaseTitle db := by
  cases hm : w.mapping with
  | ok m =>
    obtain ⟨s2, d, hres, -, -, hsc⟩ :=
      afterMapping_spec w db dry books m s (t ++ [Op.getKoboBooksMapping db])
    refine ⟨m, d, ?_, hsc⟩
    simp only [afterBooks, hm, hres]
  | error e =>
    obtain ⟨s2, d, hres, -, -, hsc⟩ :=
      afterMapping_spec w db dry books [] s (t ++ [Op.getKoboBooksMapping db])
    refine ⟨[], d, ?_, hsc⟩
    simp only [afterBooks, hm, hres]

theorem batchOps_no_create (m : List (String × MappingEntry)) (books : List Book) :
    ∀ c, Op.createBookPage c ∉ batchOps m books := by
  intro c
  unfold batchOps
  split
  · simp
  · simp

theorem stepExtract_split (w : SyncWorld) (db : String) (dry : Bool)
    (s : SyncSession) (t : List Op) (hno : ∀ c, Op.createBookPage c ∉ t) :
    ∃ t1 t2, (stepExtract w db dry s t).2 = t1 ++ t2 ∧
      (∀ c, Op.createBookPage c ∉ t1) ∧ (∀ ids, Op.deletePagesBatch ids ∉ t2) := by
  cases hb : w.books with
  | error e =>
    have hbase : ∀ c, Op.createBookPage c ∉ t ++ [Op.extractBooks] := by
      intro c hc
      rcases List.mem_append.mp hc with h | h
      · exact hno c h
      · simp at h
    cases e with
    | device m =>
      refine ⟨t ++ [Op.extractBooks], [], ?_, hbase, by simp⟩
      simp only [stepExtract, hb]
      simp
    | notion m =>
      refine ⟨t ++ [Op.extractBooks], [], ?_, hbase, by simp⟩
      simp only [stepExtract, hb, unexpectedExit]
      simp
    | other m =>
      refine ⟨t ++ [Op.extractBooks], [], ?_, hbase, by simp⟩
      simp only [stepExtract, hb, unexpectedExit]
      simp
  | ok books =>
    obtain ⟨me, d, hres, hsc⟩ :=
      afterBooks_trace w db dry books { s with books_processed := books.length }
        (t ++ [Op.extractBooks])
    refine ⟨((t ++ [Op.extractBooks]) ++ [Op.getKoboBooksMapping db]) ++ batchOps me books,
      d, ?_, ?_, scoped_no_batch hsc⟩
    · simp only [stepExtract, hb]
      exact hres
    · intro c hc
      rcases List.mem_append.mp hc with h | h
      · rcases List.mem_append.mp h with h2 | h2
        · rcases List.mem_append.mp h2 with h3 | h3
          · exact hno c h3
          · simp at h3
        · simp at h2
      · exact batchOps_no_create me books c h

theorem sync_full_split (w : SyncWorld) (db : String) (full dry : Bool) :
    ∃ t1 t2, (sync_full w db full dry).2 = t1 ++ t2 ∧
      (∀ c, Op.createBookPage c ∉ t1) ∧ (∀ ids, Op.deletePagesBatch ids ∉ t2) := by
  cases hd : w.detect with
  | error e =>
    cases e with
    | device m =>
      refine ⟨[Op.detectDevice], [], ?_, by simp, by simp⟩
      simp only [sync_full, hd]
      simp
    | notion m =>
      refine ⟨[Op.detectDevice], [], ?_, by simp, by simp⟩
      simp only [sync_full, hd, unexpectedExit]
      simp
    | other m =>
      refine ⟨[Op.detectDevice], [], ?_, by simp, by simp⟩
      simp only [sync_full, hd, unexpectedExit]
      simp
  | ok mp =>
    by_cases hf : full = true
    · cases hda : w.deleteAll with
      | ok n =>
        obtain ⟨t1, t2, heq, h1, h2⟩ := stepExtract_split w db dry
          (SyncSession.add_error {}
            ("[Full sync] Deleted " ++ toString n ++ " existing Kobo books"))
          [Op.detectDevice, Op.deleteAllKoboBooks db] (by intro c hc; simp at hc)
        refine ⟨t1, t2, ?_, h1, h2⟩
        simp only [sync_full, hd, hda]
        rw [if_pos hf]
        exact heq
      | error e =>
        cases e with
        | notion m =>
          refine ⟨[Op.detectDevice, Op.deleteAllKoboBooks db], [], ?_, by simp, by simp⟩
          simp only [sync_full, hd, hda]
          rw [if_pos hf]
          simp
        | device m =>
          refine ⟨[Op.detectDevice, Op.deleteAllKoboBooks db], [], ?_, by simp, by simp⟩
          simp only [sync_full, hd, hda, unexpectedExit]
          rw [if_pos hf]
          simp
        | other m =>
          refine ⟨[Op.detectDevice, Op.deleteAllKoboBooks db], [], ?_, by simp, by simp⟩
          simp only [sync_full, hd, hda, unexpectedExit]
          rw [if_pos hf]
          simp
    · obtain ⟨t1, t2, heq, h1, h2⟩ := stepExtract_split w db dry {} [Op.detectDevice]
        (by intro c hc; simp at hc)
      refine ⟨t1, t2, ?_, h1, h2⟩
      simp only [sync_full, hd]
      rw [if_neg hf]
      exact heq

/-- The main-path trace shape of an incremental (`full_mode = false`) run:
the fixed prefix, the single optional batch-delete call, then only step 3 /
step 4 / title operations. -/
theorem sync_full_nofull_trace (w : SyncWorld) (db mp : String) (dry : Bool)
    (books : List Book) (m : List (String × MappingEntry))
    (hd : w.detect = .ok mp) (hb : w.books = .ok books) (hm : w.mapping = .ok m) :
    ∃ d, (sync_full w db false dry).2 =
      (([Op.detectDevice, Op.extractBooks, Op.getKoboBooksMapping db]) ++ batchOps m books) ++ d ∧
      ∀ op ∈ d, step3Scoped (classifyBooks m books).toProcess op ∨
        step4Scoped (classifyBooks m books).toProcess op ∨ op = Op.updateDatabaseTitle db := by
  obtain ⟨s2, d, hres, -, -, hsc⟩ :=
    afterMapping_spec w db dry books m
      { ({} : SyncSession) with books_processed := books.length }
      (([Op.detectDevice] ++ [Op.extractBooks]) ++ [Op.getKoboBooksMapping db])
  refine ⟨d, ?_, hsc⟩
  simp only [sync_full, hd]
  rw [if_neg (by simp)]
  simp only [stepExtract, hb, afterBooks, hm, hres]
  simp

/-- C6: in every run, the batch deletion of pages marked for recreation
precedes every page creation in the trace; and on the incremental main path,
whenever any page is marked, the single batch-delete call carrying exactly
the marked ids is issued. -/
theorem C6_delete_before_create (w : SyncWorld) (db : String) (full dry : Bool) :
    (∀ i j ids c,
      ((sync_full w db full dry).2).get? i = some (Op.deletePagesBatch ids) →
      ((sync_full w db full dry).2).get? j = some (Op.createBookPage c) → i < j) ∧
    (∀ mp books m, w.detect = .ok mp → w.books = .ok books → w.mapping = .ok m →
      full = false → (classifyBooks m books).toDelete ≠ [] →
      Op.deletePagesBatch (classifyBooks m books).toDelete ∈ (sync_full w db full dry).2) := by
  constructor
  · intro i j ids c hi hj
    obtain ⟨t1, t2, heq, h1, h2⟩ := sync_full_split w db full dry
    rw [heq] at hi hj
    exact before_append h1 h2 hi hj
  · intro mp books m hdet hbooks hmap hfull hne
    subst hfull
    obtain ⟨d, hres, -⟩ := sync_full_nofull_trace w db mp dry books m hdet hbooks hmap
    rw [hres]
    refine List.mem_append_left _ (List.mem_append_right _ ?_)
    unfold batchOps
    rw [if_neg hne]
    simp

/-- C6, witness: in the concrete changed-book run, the batch delete sits at
trace index 3 and the page creation at index 8, so the ordering theorem
applies; and the batch-delete call carrying the marked page id is issued. -/
theorem C6_witness :
    (3 : ℕ) < 8 ∧
    Op.deletePagesBatch [some "p1"] ∈ (sync_full chWorld "db" false false).2 := by
  constructor
  · exact (C6_delete_before_create chWorld "db" false false).1 3 8 [some "p1"] "c1"
      (by decide) (by decide)
  · exact (C6_delete_before_create chWorld "db" false false).2 "/mnt/kobo" [exBook1]
      [("c1", ⟨some "p1", some "2025-01-01"⟩)] rfl rfl rfl rfl (by decide)

/-! ## C1 — dry_run does not suppress the remote deletions -/

/-- C1 (code bug): with `dry_run` set, `sync_full` still executes the
full-mode wipe `delete_all_kobo_books`, the batch deletion
`delete_pages_batch` of pages marked for recreation, and the
`update_database_title` write — all remote mutating operations — because only
step 4 is guarded by `dry_run` (sync_manager.py line 330). -/
theorem C1_dry_run_performs_remote_mutations :
    Op.deleteAllKoboBooks "db" ∈ (sync_full okWorld "db" true true).2 ∧
    (Op.deleteAllKoboBooks "db").isRemoteMutating = true ∧
    Op.deletePagesBatch [some "p1"] ∈ (sync_full chWorld "db" false true).2 ∧
    (Op.deletePagesBatch [some "p1"]).isRemoteMutating = true ∧
    Op.updateDatabaseTitle "db" ∈ (sync_full chWorld "db" false true).2 := by
  decide

/-! ## C3 — last-read-date change detection -/

/-- C3: for a tracked book (content id present in the batch-fetched mapping)
in an incremental, non-dry run: if the device date equals the remote date the
book is skipped entirely — it is not marked for processing and no
connectivity check, highlight extraction, page lookup or page creation is
issued for it; if the dates differ the book is marked for processing, its
mapped page id is marked for deletion, the batch-delete call carrying the
marked ids is issued, and (when the device stays connected, its highlight
extraction succeeds, and the post-deletion lookup finds no page) the book's
page is re-created. -/
theorem C3_last_read_date_change_detection
    (w : SyncWorld) (db mp : String) (books : List Book)
    (m : List (String × MappingEntry)) (b : Book) (e : MappingEntry)
    (hdet : w.detect = .ok mp) (hbooks : w.books = .ok books) (hmap : w.mapping = .ok m)
    (hnd : (books.map Book.kobo_content_id).Nodup)
    (hb : b ∈ books) (he : lookupEntry m b.kobo_content_id = some e) :
    (b.deviceDate = e.remoteDate →
      b.kobo_content_id ∉ (classifyBooks m books).toProcess ∧
      Op.checkConnected b.kobo_content_id ∉ (sync_full w db false false).2 ∧
      Op.extractHighlights b.kobo_content_id ∉ (sync_full w db false false).2 ∧
      Op.getBookByKoboId b.kobo_content_id ∉ (sync_full w db false false).2 ∧
      Op.createBookPage b.kobo_content_id ∉ (sync_full w db false false).2) ∧
    (b.deviceDate ≠ e.remoteDate →
      b.kobo_content_id ∈ (classifyBooks m books).toProcess ∧
      e.page_id ∈ (classifyBooks m books).toDelete ∧
      Op.deletePagesBatch (classifyBooks m books).toDelete ∈ (sync_full w db false false).2 ∧
      ((∀ c, w.connected c = true) → ∀ hs, w.extractHl b.kobo_content_id = .ok hs →
        w.lookup b.kobo_content_id = .ok none →
        Op.createBookPage b.kobo_content_id ∈ (sync_full w db false false).2)) := by
  constructor
  · intro hdate
    have hnotp : b.kobo_content_id ∉ (classifyBooks m books).toProcess := by
      refine classifyAux_not_mem_toProcess ?_ _ (by simp)
      intro b2 hb2 hid hnp
      have hbb : b2 = b := by
        have hinj := List.inj_on_of_nodup_map hnd
        exact hinj hb2 hb hid
      subst hbb
      rcases hnp with hnone | ⟨e2, he2, hd2⟩
      · rw [hnone] at he
        exact Option.noConfusion he
      · rw [he] at he2
        injection he2 with h3
        subst h3
        exact hd2 hdate
    obtain ⟨d, hres, hsc⟩ := sync_full_nofull_trace w db mp false books m hdet hbooks hmap
    have hskip : Op.checkConnected b.kobo_content_id ∉ d ∧
        Op.extractHighlights b.kobo_content_id ∉ d ∧
        Op.getBookByKoboId b.kobo_content_id ∉ d ∧
        Op.createBookPage b.kobo_content_id ∉ d := by
      refine ⟨?_, ?_, ?_, ?_⟩ <;> intro hmem <;>
        rcases hsc _ hmem with ⟨c, hc, h2 | h2⟩ |
          (⟨c, hc, h2 | h2 | h2⟩ | ⟨p, h2 | h2 | h2 | h2 | h2 | h2⟩) | h2 <;>
        first
          | exact Op.noConfusion h2
          | (injection h2 with h3; subst h3; exact hnotp hc)
    have habs : ∀ op : Op,
        op ∉ ([Op.detectDevice, Op.extractBooks, Op.getKoboBooksMapping db] ++
          batchOps m books) →
        op ∉ d → op ∉ (sync_full w db false false).2 := by
      intro op h1 h2 hmem
      rw [hres] at hmem
      rcases List.mem_append.mp hmem with h | h
      exacts [h1 h, h2 h]
    have hpre : ∀ c0 : String,
        Op.checkConnected c0 ∉ ([Op.detectDevice, Op.extractBooks,
          Op.getKoboBooksMapping db] ++ batchOps m books) ∧
        Op.extractHighlights c0 ∉ ([Op.detectDevice, Op.extractBooks,
          Op.getKoboBooksMapping db] ++ batchOps m books) ∧
        Op.getBookByKoboId c0 ∉ ([Op.detectDevice, Op.extractBooks,
          Op.getKoboBooksMapping db] ++ batchOps m books) ∧
        Op.createBookPage c0 ∉ ([Op.detectDevice, Op.extractBooks,
          Op.getKoboBooksMapping db] ++ batchOps m books) := by
      intro c0
      refine ⟨?_, ?_, ?_, ?_⟩ <;> intro hmem <;>
        rcases List.mem_append.mp hmem with h | h <;>
        first
          | simp at h
          | (revert h; unfold batchOps; split <;> simp)
    exact ⟨hnotp,
      habs _ (hpre _).1 hskip.1,
      habs _ (hpre _).2.1 hskip.2.1,
      habs _ (hpre _).2.2.1 hskip.2.2.1,
      habs _ (hpre _).2.2.2 hskip.2.2.2⟩
  · intro hdate
    have hnp : needsProcessing m b := Or.inr ⟨e, he, hdate⟩
    have h1 : b.kobo_content_id ∈ (classifyBooks m books).toProcess :=
      classifyAux_mem_toProcess hb hnp _
    have h2 : e.page_id ∈ (classifyBooks m books).toDelete :=
      classifyAux_mem_toDelete hb he hdate _
    have hne : (classifyBooks m books).toDelete ≠ [] := List.ne_nil_of_mem h2
    obtain ⟨d, hres, -⟩ := sync_full_nofull_trace w db mp false books m hdet hbooks hmap
    refine ⟨h1, h2, ?_, ?_⟩
    · rw [hres]
      refine List.mem_append_left _ (List.mem_append_right _ ?_)
      unfold batchOps
      rw [if_neg hne]
      simp
    · intro hconn hs hhs hlk
      simp only [sync_full, hdet]
      rw [if_neg (by simp)]
      simp only [stepExtract, hbooks, afterBooks, hmap]
      rcases step3_spec w (classifyBooks m books).toProcess books
          (recordCounts m books { ({} : SyncSession) with books_processed := books.length })
          ((([Op.detectDevice] ++ [Op.extractBooks]) ++ [Op.getKoboBooksMapping db]) ++
            batchOps m books) with
        ⟨s2, d2, hres3, -, -, -, c, hcf⟩ | ⟨s2, d2, hres3, -, -, -⟩
      · rw [hconn c] at hcf
        exact Bool.noConfusion hcf
      · simp only [afterMapping, hres3]
        rw [if_neg (by simp)]
        refine List.mem_append_left _ ?_
        exact step4_create_mem w _ books s2 _ b hs hb h1 hhs hlk

/-- C3, witness: the concrete changed tracked book is marked, its page id is
batch-deleted, and its page is re-created. -/
theorem C3_witness :
    Op.createBookPage "c1" ∈ (sync_full chWorld "db" false false).2 ∧
    "c1" ∈ (classifyBooks [("c1", ⟨some "p1", some "2025-01-01"⟩)] [exBook1]).toProcess := by
  have h := (C3_last_read_date_change_detection chWorld "db" "/mnt/kobo" [exBook1]
    [("c1", ⟨some "p1", some "2025-01-01"⟩)] exBook1 ⟨some "p1", some "2025-01-01"⟩
    rfl rfl rfl (by decide) (by decide) (by decide)).2 (by decide)
  exact ⟨h.2.2.2 (fun c => rfl) [] rfl rfl, h.1⟩

/-! ## C9 — run-level lock: fail fast when held, release otherwise -/

/-- C9: when the lock is already held, the command exits with code 1, prints
the distinct "already running" message, and performs no operation at all —
in particular no device and no remote I/O; when the lock is acquired, it is
released on every exit path (configuration error, missing token, cancelled
confirmation, initialization failure, and the sync run itself). -/
theorem C9_lock_fail_fast_and_release (w : CliWorld) (db : String) (full dry : Bool) :
    (w.lockHeld = true →
      (sync_command w db full dry).exitCode = 1 ∧
      (sync_command w db full dry).errOutput = some lockHeldMessage ∧
      (sync_command w db full dry).trace = [] ∧
      ∀ op ∈ (sync_command w db full dry).trace, ¬op.isDevice ∧ ¬op.isRemote) ∧
    (w.lockHeld = false → (sync_command w db full dry).lockReleased = true) := by
  constructor
  · intro hl
    have hcmd : sync_command w db full dry =
        { exitCode := 1, trace := [], lockReleased := false,
          errOutput := some lockHeldMessage } := by
      unfold sync_command
      rw [if_pos hl]
    rw [hcmd]
    refine ⟨rfl, rfl, rfl, ?_⟩
    intro op hop
    cases hop
  · intro hl
    unfold sync_command
    rw [if_neg (by simp [hl])]
    cases w.configLoad with
    | error e => rfl
    | ok u =>
      cases w.tokenFetch with
      | error e => rfl
      | ok o =>
        cases o with
        | none => rfl
        | some tok =>
          by_cases hcond : full = true ∧ ¬dry = true ∧ ¬w.confirmFull = true
          · rw [if_pos hcond]
          · rw [if_neg hcond]
            cases w.initError with
            | some e => rfl
            | none => rfl

/-- C9, witness: with the lock held, the command fails fast — exit code 1,
the distinct message, and an empty operation trace. -/
theorem C9_witness :
    (sync_command lockedCliWorld "db" false false).exitCode = 1 ∧
    (sync_command lockedCliWorld "db" false false).errOutput = some lockHeldMessage ∧
    (sync_command lockedCliWorld "db" false false).trace = [] := by
  have h := (C9_lock_fail_fast_and_release lockedCliWorld "db" false false).1 rfl
  exact ⟨h.1, h.2.1, h.2.2.1⟩

/-! ## C10 — a successful full-mode wipe makes the run report errors -/

/-- C10: when the full-mode wipe succeeds, its notice is recorded through
`add_error`, so the finalized session's error list is non-empty, the derived
status is never Success, and the CLI reports completion with errors and
exits with code 1. -/
theorem C10_full_mode_reports_errors (w : CliWorld) (db mp tok : String) (n : ℕ) (dry : Bool)
    (hlock : w.lockHeld = false) (hcfg : w.configLoad = .ok ())
    (htok : w.tokenFetch = .ok (some tok)) (hconf : w.confirmFull = true)
    (hinit : w.initError = none) (hdet : w.syncWorld.detect = .ok mp)
    (hdel : w.syncWorld.deleteAll = .ok n) :
    ("[Full sync] Deleted " ++ toString n ++ " existing Kobo books")
      ∈ (sync_full w.syncWorld db true dry).1.errors ∧
    (sync_full w.syncWorld db true dry).1.status ≠ SyncStatus.success ∧
    (sync_command w db true dry).exitCode = 1 := by
  have hmem := sync_full_full_marker w.syncWorld db mp dry n hdet hdel
  have hne : (sync_full w.syncWorld db true dry).1.errors ≠ [] := List.ne_nil_of_mem hmem
  refine ⟨hmem, ?_, ?_⟩
  · unfold SyncSession.status
    rw [if_neg hne]
    split <;> simp
  · unfold sync_command
    rw [if_neg (by simp [hlock])]
    simp only [hcfg, htok, hinit]
    rw [if_neg (by simp [hconf])]
    simp only [if_neg hne]

/-- C10, witness: the concrete full-mode run against the coöperative world
records the deletion notice, is not Success, and exits 1. -/
theorem C10_witness :
    ("[Full sync] Deleted " ++ toString 5 ++ " existing Kobo books")
      ∈ (sync_full okWorld "db" true false).1.errors ∧
    (sync_full okWorld "db" true false).1.status ≠ SyncStatus.success ∧
    (sync_command okCliWorld "db" true false).exitCode = 1 :=
  C10_full_mode_reports_errors okCliWorld "db" "/mnt/kobo" "tok" 5 false
    rfl rfl rfl rfl rfl rfl rfl
